import Mathlib

/-!
Shallow embedding of the pattern parser in lib/Parse/ParsePattern.cpp.

The token stream, diagnostic sink, expression parser, type reference parser
and the generic comma-separated list driver are external collaborators of the
parser; they are modelled at their interface (a token either is a structural
token or carries a whole pre-parsed expression or type reference).  Source
locations are abstracted away: no behaviour of the parser depends on a
location value, only on the validity of the tuple ellipsis location, which is
kept as a Boolean.  Machine state that the C++ code mutates through references
(the token cursor, the diagnostic sink, Parser::InVarOrLetPattern, and the
DefaultArgumentInfo counter and retained-context collection) is threaded
explicitly through a parser-state record.

Recursion in the grammar (pattern -> tuple -> element -> pattern) is broken
with a fuel parameter on which the mutual recursion is structural: a parsing
function run at fuel n may recurse at depth n.  Every equation proved below supplies
enough fuel explicitly, so the fuel-exhaustion branches are never exercised.
-/

namespace ParsePattern

/-- The kinds of MagicIdentifierLiteralExpr relevant to default-argument
classification (getDefaultArgKind, ParsePattern.cpp:54). -/
inductive MagicKind where
  | column | file | line
deriving DecidableEq, Repr

/-- An already-parsed expression, as delivered by the external expression
parser.  A plain expression records whether parsing it opened any closures
(the information Parser::ParseFunctionBody::hasClosures reports). -/
inductive Expr where
  | magicE (k : MagicKind)
  | plainE (id : Nat) (closures : Bool)
deriving DecidableEq, Repr

/-- Whether parsing this initializer expression introduced closures. -/
def Expr.hasClosures : Expr → Bool
  | .magicE _ => false
  | .plainE _ c => c

/-- An already-parsed type reference, as delivered by the external type
parser.  emptyTupleT stands for the TupleTypeRepr with no elements used by
the selector-argument recovery path (ParsePattern.cpp:293). -/
inductive TypeRepr where
  | namedT (s : String)
  | errorT
  | emptyTupleT
deriving DecidableEq, Repr

/-- DefaultArgumentKind (swift/AST); computed by getDefaultArgKind. -/
inductive DefaultArgKind where
  | none | normal | column | file | line
deriving DecidableEq, Repr

/-- Tokens.  ident/underscore/keyword/punctuation tokens mirror the token
kinds the parser inspects; exprTok and typeTok carry the result of the
external expression/type parsers; declKw and stmtKw stand for any token for
which isStartOfDecl resp. isStartOfStmt holds; eof is the end of the
stream. -/
inductive Tok where
  | lParen | rParen | lBrace | rBrace
  | comma | ellipsis | equal | colon | arrow
  | ident (s : String)
  | underscore
  | kwLet | kwVar | kwIs
  | kwOther (s : String)
  | declKw | stmtKw
  | codeComplete
  | exprTok (e : Expr)
  | typeTok (t : TypeRepr)
  | eof
deriving DecidableEq, Repr

/-- Tok.isKeyword (used by parsePatternAtom's default case). -/
def Tok.isKeyword : Tok → Bool
  | .underscore | .kwLet | .kwVar | .kwIs | .kwOther _ | .declKw | .stmtKw => true
  | _ => false

/-- The diagnostics the modelled code can emit, identified by their diag::
name.  nonFuncDeclPatternInit records whether the fixItRemove for the
initializer text was attached (ParsePattern.cpp:116-118). -/
inductive Diag where
  | nonFuncDeclPatternInit (hasFixItRemove : Bool)
  | funcSelectorWithoutParen
  | funcSelectorWithNotOneArgument
  | funcSelectorWithCurry
  | redefinition (name : String)
  | varPatternInVar (isLet : Bool)
  | expectedPatternIsKeyword
  | expectedPattern
  | tupleEllipsisInit
  | untypedPatternEllipsis
  | ellipsisPatternNotAtEnd
  | expectedRParenTuplePatternList
  | unexpectedSepAfterLast
deriving DecidableEq, Repr

/-- ParserStatus: an error bit and a code-completion bit. -/
structure Status where
  isError : Bool
  hasCC : Bool
deriving DecidableEq, Repr

/-- ParserStatus::operator|=. -/
def Status.union (a b : Status) : Status := ⟨a.isError || b.isError, a.hasCC || b.hasCC⟩

/-- makeParserSuccess(). -/
def psSuccess : Status := ⟨false, false⟩

/-- makeParserError(). -/
def psError : Status := ⟨true, false⟩

/-- makeParserCodeCompletionStatus() (sets both bits). -/
def psCC : Status := ⟨true, true⟩

mutual
/-- The pattern AST (swift/AST/Pattern.h), restricted to the payload this
parser reads or writes: variant, subpatterns, binding name and mutability,
type reference, tuple fields and variadic flag, and the implicit flag. -/
inductive Pattern where
  | anyP (implicit : Bool)
  | named (name : String) (isLet : Bool) (implicit : Bool)
  | paren (sub : Pattern) (implicit : Bool)
  | typed (sub : Pattern) (ty : TypeRepr) (implicit : Bool)
  | tuple (elts : List TuplePatternElt) (hasVararg : Bool) (implicit : Bool)
  | varP (isLet : Bool) (sub : Pattern) (implicit : Bool)
  | exprP (e : Expr) (implicit : Bool)
  | isaP (ty : TypeRepr) (implicit : Bool)

/-- TuplePatternElt: a pattern, an optional initializer (the ExprHandle is
collapsed to the expression it wraps) and a default-argument kind. -/
inductive TuplePatternElt where
  | mk (pat : Pattern) (init : Option Expr) (kind : DefaultArgKind)
end

/-- TuplePatternElt::getPattern(). -/
def TuplePatternElt.getPattern : TuplePatternElt → Pattern
  | .mk p _ _ => p

/-- TuplePatternElt::getInit(). -/
def TuplePatternElt.getInit : TuplePatternElt → Option Expr
  | .mk _ i _ => i

/-- TuplePatternElt::getDefaultArgKind(). -/
def TuplePatternElt.argKind : TuplePatternElt → DefaultArgKind
  | .mk _ _ k => k

/-- Pattern::setImplicit(). -/
def Pattern.setImplicit : Pattern → Pattern
  | .anyP _ => .anyP true
  | .named n l _ => .named n l true
  | .paren s _ => .paren s true
  | .typed s t _ => .typed s t true
  | .tuple es v _ => .tuple es v true
  | .varP l s _ => .varP l s true
  | .exprP e _ => .exprP e true
  | .isaP t _ => .isaP t true

/-- dyn_cast(TypedPattern) succeeds. -/
def Pattern.isTyped : Pattern → Bool
  | .typed _ _ _ => true
  | _ => false

/-- The node is a TuplePattern. -/
def Pattern.isTupleNode : Pattern → Bool
  | .tuple _ _ _ => true
  | _ => false

/-- The node is a ParenPattern or a TuplePattern (the two shapes
parsePatternTuple can produce, see the comment at ParsePattern.cpp:211). -/
def Pattern.isParenOrTuple : Pattern → Bool
  | .paren _ _ => true
  | .tuple _ _ _ => true
  | _ => false

/-- The elements visible in a parenthesized pattern: the fields of a
TuplePattern, or the single sub-pattern of a ParenPattern. -/
def Pattern.fields : Pattern → List TuplePatternElt
  | .tuple es _ _ => es
  | .paren s _ => [.mk s none .none]
  | _ => []

/-- TuplePattern::hasVararg() (false for every other node). -/
def Pattern.hasVarargFlag : Pattern → Bool
  | .tuple _ v _ => v
  | _ => false

/-- The terminal binding position of a pattern: the atom reached by
descending through typed, paren and var wrappers. -/
def Pattern.leafOf : Pattern → Pattern
  | .typed s _ _ => s.leafOf
  | .paren s _ => s.leafOf
  | .varP _ s _ => s.leafOf
  | p => p

/-- TuplePattern::create with no elements, as used for recovery
(ParsePattern.cpp:342). -/
def emptyTuplePattern : Pattern := .tuple [] false false

/-- Modelled from the spec: TuplePattern::createSimple (an AST helper whose
definition is not under src/).  Per the data model (spec section 3), a Paren
node is produced for a single, non-labelled, non-variadic parenthesized
pattern; an element carrying an initializer cannot collapse, because a
ParenPattern has no initializer slot (parseSelectorArgument relies on single
initialized elements arriving as one-element TuplePatterns,
ParsePattern.cpp:211-231). -/
def createSimple (elts : List TuplePatternElt) (hasVararg : Bool) : Pattern :=
  match elts, hasVararg with
  | [.mk p none _], false => .paren p false
  | _, _ => .tuple elts hasVararg false

/-- getDefaultArgKind (ParsePattern.cpp:54-70). -/
def getDefaultArgKind : Option Expr → DefaultArgKind
  | none => .none
  | some (.magicE .column) => .column
  | some (.magicE .file) => .file
  | some (.magicE .line) => .line
  | some (.plainE _ _) => .normal

/-- The parser state threaded through every function: the remaining tokens,
Parser::InVarOrLetPattern (none, or some isLet), the emitted diagnostics, and
the DefaultArgumentInfo owned by the enclosing signature parse (NextIndex and
ParsedContexts) together with a log of every default-argument context the
ASTContext created (with its argument index) and destroyed, and a fresh-id
counter for those contexts. -/
structure PState where
  toks : List Tok
  inVarOrLet : Option Bool
  diags : List Diag
  nextIndex : Nat
  parsedContexts : List Nat
  createdCtxs : List (Nat × Nat)
  destroyedCtxs : List Nat
  nextCtx : Nat
deriving DecidableEq, Repr

/-- The current token (Parser::Tok). -/
def PState.cur (st : PState) : Tok := st.toks.headD .eof

/-- Parser::peekToken(). -/
def PState.peek (st : PState) : Tok := (st.toks.drop 1).headD .eof

/-- consumeToken(): drop the current token. -/
def PState.advance (st : PState) : PState := { st with toks := st.toks.tail }

/-- Emit one diagnostic. -/
def PState.addDiag (st : PState) (d : Diag) : PState := { st with diags := st.diags ++ [d] }

/-- A fresh parser state over a token stream. -/
def initState (ts : List Tok) : PState := ⟨ts, none, [], 0, [], [], [], 0⟩

/-- Parser::isStartOfDecl, at the interface this file needs: only the
designated decl-keyword token starts a declaration. -/
def isStartOfDecl (t _peek : Tok) : Bool := t = .declKw

/-- Parser::isStartOfStmt, at the interface this file needs. -/
def isStartOfStmt (t : Tok) : Bool := t = .stmtKw

/-- Parser::isAtStartOfBindingName (ParsePattern.cpp:552-555). -/
def isAtStartOfBindingName (st : PState) : Bool :=
  match st.cur with
  | .underscore => true
  | .ident _ => !isStartOfDecl st.cur st.peek
  | _ => false

/-- The external expression parser (Parser::parseExpr), at its interface: it
consumes one expression token and reports the parsed expression, whether the
result is a code-completion result, and whether parsing opened closures
(initScope.hasClosures() in ParsePattern.cpp:106). -/
def parseExpr (st : PState) : Option Expr × Bool × Bool × PState :=
  match st.cur with
  | .exprTok e => (some e, false, e.hasClosures, st.advance)
  | .codeComplete => (none, true, false, st.advance)
  | _ => (none, false, false, st)

/-- The external type parser (Parser::parseTypeAnnotation), at its interface:
it consumes one type token and reports the type reference, and whether the
result is a code-completion result. -/
def parseTypeAnn (st : PState) : Option TypeRepr × Bool × PState :=
  match st.cur with
  | .typeTok t => (some t, false, st.advance)
  | .codeComplete => (none, true, st.advance)
  | _ => (none, false, st)

/-- The token-skipping part of recoverFromBadSelectorArgument
(ParsePattern.cpp:73-78): skip while the current token is not eof, r_paren,
l_brace, r_brace, a statement start or a declaration start.  P.skipSingle()
is modelled as consuming one token. -/
def recoverSkipToks : List Tok → List Tok
  | [] => []
  | t :: ts =>
    if t = .rParen || t = .lBrace || t = .rBrace || isStartOfStmt t
        || isStartOfDecl t (ts.headD .eof) then
      t :: ts
    else recoverSkipToks ts

/-- recoverFromBadSelectorArgument (ParsePattern.cpp:72-80). -/
def recoverFromBadSelectorArgument (st : PState) : PState :=
  let st : PState := { st with toks := recoverSkipToks st.toks }
  if st.cur = .rParen then st.advance else st

/-- Parser::skipUntilDeclRBrace(tok::l_brace), at its interface: skip to the
next declaration start, r_brace or l_brace (or the end of the stream). -/
def skipDeclRBraceToks : List Tok → List Tok
  | [] => []
  | t :: ts =>
    if t = .rBrace || t = .lBrace || isStartOfDecl t (ts.headD .eof) then t :: ts
    else skipDeclRBraceToks ts

/-- Lift skipDeclRBraceToks to the parser state. -/
def PState.skipUntilDeclRBrace (st : PState) : PState :=
  { st with toks := skipDeclRBraceToks st.toks }

/-- The skip-to-separator recovery of the external list driver: skip to the
next comma or right parenthesis (or the end of the stream). -/
def skipToListSepToks : List Tok → List Tok
  | [] => []
  | t :: ts => if t = .comma || t = .rParen then t :: ts else skipToListSepToks ts

/-- parseDefaultArgument (ParsePattern.cpp:89-132).  defaultArgs is modelled
by the flag u (whether a non-null DefaultArgumentInfo was supplied); the
context the ASTContext creates is logged in createdCtxs with its argument
index, destroyDefaultArgumentContext appends to destroyedCtxs, and
defaultArgs->ParsedContexts is the parsedContexts field.  ExprHandle::get is
collapsed into the expression itself. -/
def parseDefaultArgument (u : Bool) (argIndex : Nat) (st : PState) :
    Status × Option Expr × PState :=
  -- SourceLoc equalLoc = P.consumeToken(tok::equal)
  let st := st.advance
  -- auto initDC = P.Context.createDefaultArgumentContext(P.CurDeclContext, argIndex)
  let ctx := st.nextCtx
  let st : PState :=
    { st with nextCtx := ctx + 1, createdCtxs := st.createdCtxs ++ [(ctx, argIndex)] }
  let (initR, initCC, closures, st) := parseExpr st
  -- give back the context if we did not need it; otherwise record it if
  -- default arguments are accepted here
  let st : PState :=
    if !closures then { st with destroyedCtxs := st.destroyedCtxs ++ [ctx] }
    else if u then { st with parsedContexts := st.parsedContexts ++ [ctx] }
    else st
  let st :=
    if !u then st.addDiag (.nonFuncDeclPatternInit initR.isSome)
    else st
  if initCC then (psCC, none, recoverFromBadSelectorArgument st)
  else
    match initR with
    | none => (psError, none, recoverFromBadSelectorArgument st)
    | some e => (psSuccess, some e, st)

mutual
/-- Pattern::clone(Context, isImplicit = true).  Modelled from the spec: the
clone operation lives in the AST library (not under src/); per spec section
4.4 it is a deep copy with every new node marked implicit. -/
def cloneImplicit : Pattern → Pattern
  | .anyP _ => .anyP true
  | .named n l _ => .named n l true
  | .paren s _ => .paren (cloneImplicit s) true
  | .typed s t _ => .typed (cloneImplicit s) t true
  | .tuple es v _ => .tuple (cloneImplicitElts es) v true
  | .varP l s _ => .varP l (cloneImplicit s) true
  | .exprP e _ => .exprP e true
  | .isaP t _ => .isaP t true

/-- Clone of a list of tuple elements. -/
def cloneImplicitElts : List TuplePatternElt → List TuplePatternElt
  | [] => []
  | e :: es => cloneImplicitElt e :: cloneImplicitElts es

/-- Clone of one tuple element. -/
def cloneImplicitElt : TuplePatternElt → TuplePatternElt
  | .mk p i k => .mk (cloneImplicit p) i k
end

mutual
/-- The ReplaceRoot walker of rebuildImplicitPatternAround
(ParsePattern.cpp:142-165): on entering a TypedPattern its subpattern is
replaced by the new root with no further descent; a NamedPattern or
AnyPattern leaf is replaced by the new root; every other node is rebuilt
around its walked children. -/
def replaceRoot (newRoot : Pattern) : Pattern → Pattern
  | .typed _ ty impl => .typed newRoot ty impl
  | .named _ _ _ => newRoot
  | .anyP _ => newRoot
  | .paren s impl => .paren (replaceRoot newRoot s) impl
  | .tuple es v impl => .tuple (replaceRootElts newRoot es) v impl
  | .varP l s impl => .varP l (replaceRoot newRoot s) impl
  | .exprP e impl => .exprP e impl
  | .isaP t impl => .isaP t impl

/-- The walker over a list of tuple elements. -/
def replaceRootElts (newRoot : Pattern) : List TuplePatternElt → List TuplePatternElt
  | [] => []
  | e :: es => replaceRootElt newRoot e :: replaceRootElts newRoot es

/-- The walker over one tuple element. -/
def replaceRootElt (newRoot : Pattern) : TuplePatternElt → TuplePatternElt
  | .mk p i k => .mk (replaceRoot newRoot p) i k
end

/-- rebuildImplicitPatternAround (ParsePattern.cpp:137-168): clone the
pattern implicitly, then run the ReplaceRoot walker over the clone. -/
def rebuildImplicitPatternAround (p : Pattern) (newRoot : Pattern) : Pattern :=
  replaceRoot newRoot (cloneImplicit p)

mutual
/-- The rewrite contract stated by spec section 4.4, written as one
structural pass: produce a structurally cloned pattern, all new nodes marked
implicit, in which every Typed node's immediate subpattern is replaced by the
replacement subtree (with no further descent) and every leaf Named or Any
node is replaced by the replacement subtree; tuple, paren, typed and var
nesting is preserved, and the replacement subtree is inserted verbatim. -/
def rebuildImplicitSpec : Pattern → Pattern → Pattern
  | .typed _ ty _, r => .typed r ty true
  | .named _ _ _, r => r
  | .anyP _, r => r
  | .paren s _, r => .paren (rebuildImplicitSpec s r) true
  | .tuple es v _, r => .tuple (rebuildImplicitSpecElts es r) v true
  | .varP l s _, r => .varP l (rebuildImplicitSpec s r) true
  | .exprP e _, _ => .exprP e true
  | .isaP t _, _ => .isaP t true

/-- The spec rewrite over a list of tuple elements. -/
def rebuildImplicitSpecElts : List TuplePatternElt → Pattern → List TuplePatternElt
  | [], _ => []
  | .mk p i k :: es, r => .mk (rebuildImplicitSpec p r) i k :: rebuildImplicitSpecElts es r
end

/-- getFirstSelectorPattern (ParsePattern.cpp:243-248): rebuild the pattern
around an implicit AnyPattern. -/
def getFirstSelectorPattern (argPattern : Pattern) : Pattern :=
  rebuildImplicitPatternAround argPattern (.anyP true)

/-- Parser::parsePatternIdentifier (ParsePattern.cpp:565-578), with
createBindingFromPattern (ParsePattern.cpp:557-562) collapsed into the Named
node it produces. -/
def parsePatternIdentifier (isLet : Bool) (st : PState) :
    Option Pattern × Status × PState :=
  match st.cur with
  | .underscore => (some (.anyP false), psSuccess, st.advance)
  | .ident s => (some (.named s isLet false), psSuccess, st.advance)
  | _ => (none, psError, st)

/-! The mutually recursive core grammar functions.  Recursion in the grammar
(pattern -> tuple -> element -> pattern, and the element loop) is paid for by
a fuel parameter on which the mutual recursion is structural: every recursive
call runs at one fuel level lower.  The zero-fuel results are unreachable
whenever the supplied fuel covers the recursion depth of the input (every
equation proved below supplies enough fuel explicitly); the zero-fuel
parsePatternTuple keeps the always-non-null result shape of the source
function (ParsePattern.cpp:706-708 always returns a constructed pattern).
parsePatternTupleBody is one iteration of the element loop that
Parser::parseList runs for parsePatternTuple, with the element callback of
ParsePattern.cpp:656-704 inlined; the external list driver around it is
modelled at its interface (separator comma, right delimiter r_paren, no
trailing separator, skip-to-separator recovery). -/

mutual

/-- Parser::parsePattern (ParsePattern.cpp:502-529). -/
def parsePattern : Nat → Bool → PState → Option Pattern × Status × PState
  | 0, _, st => (none, psError, st)
  | n + 1, isLet, st =>
    if st.cur = .kwLet || st.cur = .kwVar then parsePatternVarOrLet n st
    else
      let (res, rstat, st) := parsePatternAtom n isLet st
      if st.cur = .colon then
        let st := st.advance
        -- recover by creating AnyPattern if the atom failed
        let (res, rstat, st) :=
          match res with
          | none => (some (Pattern.anyP false), psError, st)
          | some p => (some p, rstat, st)
        let (ty, tyCC, st) := parseTypeAnn st
        if tyCC then (none, psCC, st)
        else
          let ty := ty.getD .errorT
          (res.map (fun p => .typed p ty false), rstat, st)
      else (res, rstat, st)

/-- Parser::parsePatternVarOrLet (ParsePattern.cpp:531-548). -/
def parsePatternVarOrLet : Nat → PState → Option Pattern × Status × PState
  | 0, st => (none, psError, st)
  | n + 1, st =>
    let isLet := st.cur = .kwLet
    let st := st.advance
    -- 'var' and 'let' patterns shouldn't nest
    let st := if st.inVarOrLet.isSome then st.addDiag (.varPatternInVar isLet) else st
    -- llvm::SaveAndRestore of InVarOrLetPattern
    let saved := st.inVarOrLet
    let st : PState := { st with inVarOrLet := some isLet }
    let (sub, _, st) := parsePattern n isLet st
    let st : PState := { st with inVarOrLet := saved }
    match sub with
    | none => (none, psError, st)
    | some sub => (some (.varP isLet sub false), psSuccess, st)

/-- Parser::parsePatternAtom (ParsePattern.cpp:586-613). -/
def parsePatternAtom : Nat → Bool → PState → Option Pattern × Status × PState
  | 0, _, st => (none, psError, st)
  | n + 1, isLet, st =>
    match st.cur with
    | .lParen => parsePatternTuple n false isLet st
    | .ident _ => parsePatternIdentifier isLet st
    | .underscore => parsePatternIdentifier isLet st
    | .codeComplete => (none, psError, st.advance)
    | t =>
      if t.isKeyword && (st.peek = .colon || st.peek = .equal) then
        (some (.anyP false), psError, (st.addDiag .expectedPatternIsKeyword).advance)
      else (none, psError, st.addDiag .expectedPattern)

/-- Parser::parsePatternTupleElement (ParsePattern.cpp:615-636).  u is
whether a non-null DefaultArgumentInfo was supplied. -/
def parsePatternTupleElement :
    Nat → Bool → Bool → PState → Status × Option TuplePatternElt × PState
  | 0, _, _, st => (psError, none, st)
  | n + 1, u, isLet, st =>
    let (defaultArgIndex, st) :=
      if u then (st.nextIndex, { st with nextIndex := st.nextIndex + 1 }) else (0, st)
    let (pat, pstat, st) := parsePattern n isLet st
    if pstat.hasCC then (psCC, none, st)
    else
      match pat with
      | none => (psError, none, st)
      | some pat =>
        -- parse the optional initializer; its status is discarded
        let (init, st) :=
          if st.cur = .equal then
            let (_, i, st) := parseDefaultArgument u defaultArgIndex st
            (i, st)
          else (none, st)
        (psSuccess, some (.mk pat init (getDefaultArgKind init)), st)

/-- One iteration of the element loop of the list driver around the callback
of ParsePattern.cpp:656-704; elts, ell and stat accumulate the collected
elements, the ellipsis validity and the list status. -/
def parsePatternTupleBody :
    Nat → Bool → Bool → List TuplePatternElt → Bool → Status → PState →
      Status × List TuplePatternElt × Bool × PState
  | 0, _, _, elts, ell, stat, st => (stat.union psError, elts, ell, st)
  | n + 1, u, isLet, elts, ell, stat, st =>
    let (cbStat, elts, ell, st) : Status × List TuplePatternElt × Bool × PState :=
      let (eltStat, elt, st) := parsePatternTupleElement n u isLet st
      if eltStat.hasCC then (psCC, elts, ell, st)
      else
        match elt with
        | none => (psError, elts, ell, st)
        | some elt =>
          let elts := elts ++ [elt]
          if st.cur ≠ .ellipsis then (psSuccess, elts, ell, st)
          else
            let st := st.advance
            -- an element cannot have both an initializer and an ellipsis
            if elt.getInit.isSome then (psSuccess, elts, ell, st.addDiag .tupleEllipsisInit)
            -- an ellipsis element shall have a specified element type
            else if !elt.getPattern.isTyped then
              (psSuccess, elts, ell, st.addDiag .untypedPatternEllipsis)
            -- variadic elements must come last
            else if st.cur = .rParen then (psSuccess, elts, true, st)
            else (psSuccess, elts, ell, st.addDiag .ellipsisPatternNotAtEnd)
    let stat := stat.union cbStat
    if cbStat.hasCC then (stat, elts, ell, st)
    else if st.cur = .comma then
      let st := st.advance
      if st.cur = .rParen then (stat, elts, ell, (st.addDiag .unexpectedSepAfterLast).advance)
      else parsePatternTupleBody n u isLet elts ell stat st
    else if st.cur = .rParen then (stat, elts, ell, st.advance)
    else
      let st := st.addDiag .expectedRParenTuplePatternList
      let stat := stat.union psError
      let st : PState := { st with toks := skipToListSepToks st.toks }
      if st.cur = .comma then parsePatternTupleBody n u isLet elts ell stat st.advance
      else if st.cur = .rParen then (stat, elts, ell, st.advance)
      else (stat, elts, ell, st)

/-- Parser::parsePatternTuple (ParsePattern.cpp:645-709); call sites
guarantee the current token is l_paren. -/
def parsePatternTuple : Nat → Bool → Bool → PState → Option Pattern × Status × PState
  | 0, _, _, st => (some emptyTuplePattern, psError, st)
  | n + 1, u, isLet, st =>
    let st := st.advance
    if st.cur = .rParen then (some (createSimple [] false), psSuccess, st.advance)
    else
      let (listStat, elts, ell, st) := parsePatternTupleBody n u isLet [] false psSuccess st
      (some (createSimple elts ell), listStat, st)

end

/-- parseSelectorArgument (ParsePattern.cpp:171-241).  The by-reference
element vectors, selector-name table and r-paren location of the source
become explicit arguments and results (the location is dropped).  pf is the
fuel handed to the core grammar. -/
def parseSelectorArgument (pf : Nat) (argElts bodyElts : List TuplePatternElt)
    (selectorNames : List String) (st : PState) :
    Status × List TuplePatternElt × List TuplePatternElt × List String × PState :=
  let (argPat, _, st) := parsePatternIdentifier true st
  match argPat with
  | none =>
    -- the source asserts here; the loop guard isAtStartOfBindingName makes
    -- this branch unreachable
    (psError, argElts, bodyElts, selectorNames, st)
  | some argPat0 =>
    let argPat := argPat0.setImplicit
    -- check that a selector name isn't used multiple times
    let (selectorNames, st) :=
      match argPat with
      | .named nm _ _ =>
        if selectorNames.contains nm then (selectorNames, st.addDiag (.redefinition nm))
        else (selectorNames ++ [nm], st)
      | _ => (selectorNames, st)
    if st.cur ≠ .lParen then
      (psError, argElts, bodyElts, selectorNames, st.addDiag .funcSelectorWithoutParen)
    else
      let (pat, pstat, st) := parsePatternTuple pf true true st
      match pat with
      | none =>
        let st := if pstat.isError then recoverFromBadSelectorArgument st else st
        (pstat, argElts, bodyElts, selectorNames, st)
      | some pat =>
        -- the result of parsing a '(' pattern is either a ParenPattern or a
        -- TuplePattern
        let finish := fun (belt : TuplePatternElt) (st : PState) =>
          let bodyElts := bodyElts ++ [belt]
          let argPat := rebuildImplicitPatternAround belt.getPattern argPat
          (psSuccess,
           argElts ++ [TuplePatternElt.mk argPat belt.getInit (getDefaultArgKind belt.getInit)],
           bodyElts, selectorNames, st)
        match pat with
        | .paren sub _ => finish (.mk sub none .none) st
        | .tuple es v _ =>
          -- reject tuple patterns that aren't a single argument
          if es.length != 1 || v then
            (psError, argElts, bodyElts, selectorNames,
             st.addDiag .funcSelectorWithNotOneArgument)
          else
            match es with
            | [e] => finish e st
            | _ => (psError, argElts, bodyElts, selectorNames, st)
        | _ =>
          -- cast(TuplePattern) in the source; parsePatternTuple only
          -- produces paren or tuple nodes, so this branch is unreachable
          (psError, argElts, bodyElts, selectorNames, st)

/-- The selector loop of parseSelectorFunctionArguments
(ParsePattern.cpp:308-322), with a loop-fuel parameter; an exhausted loop
fuel behaves like the loop exit (unreachable with adequate fuel, since every
iteration consumes at least the binding-name token). -/
def selectorArgumentLoop :
    Nat → Nat → List TuplePatternElt → List TuplePatternElt → List String →
      Status → PState → Status × List TuplePatternElt × List TuplePatternElt × PState
  | 0, _, argElts, bodyElts, _, stat, st => (stat, argElts, bodyElts, st)
  | lf + 1, pf, argElts, bodyElts, names, stat, st =>
    if isAtStartOfBindingName st then
      let (s, argElts, bodyElts, names, st) :=
        parseSelectorArgument pf argElts bodyElts names st
      selectorArgumentLoop lf pf argElts bodyElts names (stat.union s) st
    else if st.cur = .lParen then
      let st := (st.addDiag .funcSelectorWithCurry).skipUntilDeclRBrace
      (stat.union psError, argElts, bodyElts, st)
    else (stat, argElts, bodyElts, st)

/-- parseSelectorFunctionArguments (ParsePattern.cpp:251-330). -/
def parseSelectorFunctionArguments (lf pf : Nat)
    (argPatterns bodyPatterns : List Pattern) (firstPattern : Pattern) (st : PState) :
    Status × List Pattern × List Pattern × PState :=
  let go := fun (argElts bodyElts : List TuplePatternElt) (st : PState) =>
    let (stat, argElts, bodyElts, st) :=
      selectorArgumentLoop lf pf argElts bodyElts [] psSuccess st
    (stat,
     argPatterns ++ [Pattern.tuple argElts false true],
     bodyPatterns ++ [Pattern.tuple bodyElts false false],
     st)
  match firstPattern with
  | .paren sub _ =>
    go [TuplePatternElt.mk (getFirstSelectorPattern sub) none .none]
       [TuplePatternElt.mk sub none .none] st
  | .tuple es _ _ =>
    let st := if es.length != 1 then st.addDiag .funcSelectorWithNotOneArgument else st
    match es with
    | firstElt :: _ =>
      go [TuplePatternElt.mk (getFirstSelectorPattern firstElt.getPattern)
            firstElt.getInit firstElt.argKind]
         [firstElt] st
    | [] =>
      -- recover by creating a '(_: ())' pattern
      let firstElt := TuplePatternElt.mk (.typed (.anyP false) .emptyTupleT false) none .none
      go [firstElt] [firstElt] st
  | _ =>
    -- llvm_unreachable in the source: the first pattern always comes from
    -- parsePatternTuple, which yields only paren or tuple nodes
    (psError, argPatterns, bodyPatterns, st)

/-- parseCurriedFunctionArguments (ParsePattern.cpp:34-50), with a loop-fuel
parameter; an exhausted loop fuel behaves like the loop exit (unreachable
with adequate fuel, since every iteration consumes at least one token). -/
def parseCurriedFunctionArguments :
    Nat → Nat → List Pattern → List Pattern → PState →
      Status × List Pattern × List Pattern × PState
  | 0, _, argPat, bodyPat, st => (psSuccess, argPat, bodyPat, st)
  | lf + 1, pf, argPat, bodyPat, st =>
    if st.cur = .lParen then
      let (p, pstat, st) := parsePatternTuple pf false true st
      match p with
      | none => (pstat, argPat, bodyPat, st)
      | some p =>
        if pstat.hasCC then (pstat, argPat, bodyPat, st)
        else parseCurriedFunctionArguments lf pf (argPat ++ [p]) (bodyPat ++ [p]) st
    else (psSuccess, argPat, bodyPat, st)

/-- Parser::parseFunctionArguments (ParsePattern.cpp:332-363).  The Boolean
in the result is HasSelectorStyleSignature.  ParserResult::get() on the
(provably impossible) null first result, which asserts in the source, is
modelled as yielding the recovery empty tuple. -/
def parseFunctionArguments (lf pf : Nat)
    (argPatterns bodyPatterns : List Pattern) (st : PState) :
    Status × List Pattern × List Pattern × Bool × PState :=
  let (first, fstat, st) := parsePatternTuple pf true true st
  let (argPatterns, bodyPatterns) :=
    match first with
    | none => (argPatterns ++ [emptyTuplePattern], bodyPatterns ++ [emptyTuplePattern])
    | some _ => (argPatterns, bodyPatterns)
  let firstPattern := first.getD emptyTuplePattern
  if isAtStartOfBindingName st then
    let (s, a, b, st) :=
      parseSelectorFunctionArguments lf pf argPatterns bodyPatterns firstPattern st
    (fstat.union s, a, b, true, st)
  else
    let (s, a, b, st) :=
      parseCurriedFunctionArguments lf pf (argPatterns ++ [firstPattern])
        (bodyPatterns ++ [firstPattern]) st
    (fstat.union s, a, b, false, st)

/-! Statement-side test harness: descriptions of syntactically valid tuple
elements and selector clauses, functions rendering them to token streams, and
functions computing the parse results and parser-state effects the theorems
below assert. -/

/-- A description of one valid tuple-pattern element: binding name, optional
type annotation part, optional initializer expression, optional trailing
ellipsis. -/
structure EltDesc where
  name : String
  ty : Option TypeRepr
  init : Option Expr
  ell : Bool
deriving DecidableEq, Repr

/-- The tokens of an element, without its trailing ellipsis. -/
def renderEltCore (d : EltDesc) : List Tok :=
  Tok.ident d.name ::
    ((match d.ty with | some t => [Tok.colon, Tok.typeTok t] | none => []) ++
     (match d.init with | some e => [Tok.equal, Tok.exprTok e] | none => []))

/-- The tokens of an element, including its trailing ellipsis. -/
def renderEltDesc (d : EltDesc) : List Tok :=
  renderEltCore d ++ (if d.ell then [Tok.ellipsis] else [])

/-- The comma-separated token list of a sequence of elements. -/
def renderEltDescs : List EltDesc → List Tok
  | [] => []
  | [d] => renderEltDesc d
  | d :: ds => renderEltDesc d ++ Tok.comma :: renderEltDescs ds

/-- The parenthesized token list of a tuple pattern. -/
def renderTupleToks (ds : List EltDesc) : List Tok :=
  Tok.lParen :: (renderEltDescs ds ++ [Tok.rParen])

/-- The pattern an element description parses to. -/
def expectedEltPattern (isLet : Bool) (d : EltDesc) : Pattern :=
  match d.ty with
  | some t => .typed (.named d.name isLet false) t false
  | none => .named d.name isLet false

/-- The TuplePatternElt an element description parses to. -/
def expectedElt (isLet : Bool) (d : EltDesc) : TuplePatternElt :=
  .mk (expectedEltPattern isLet d) d.init (getDefaultArgKind d.init)

/-- The diagnostic the ellipsis handling of an element emits. -/
def ellDiagOf (isLast : Bool) (d : EltDesc) : List Diag :=
  if d.ell then
    if d.init.isSome then [.tupleEllipsisInit]
    else if d.ty.isNone then [.untypedPatternEllipsis]
    else if isLast then [] else [.ellipsisPatternNotAtEnd]
  else []

/-- Every diagnostic one element of the valid family emits. -/
def expectedEltDiags (u isLast : Bool) (d : EltDesc) : List Diag :=
  (if d.init.isSome && !u then [Diag.nonFuncDeclPatternInit true] else []) ++ ellDiagOf isLast d

/-- Every diagnostic a tuple of the valid family emits, in order. -/
def expectedDiags (u : Bool) : List EltDesc → List Diag
  | [] => []
  | d :: ds => expectedEltDiags u ds.isEmpty d ++ expectedDiags u ds

/-- Whether the final element carries the ellipsis on a typed element with no
initializer, the condition under which the parsed tuple is variadic. -/
def lastSetsVararg : List EltDesc → Bool
  | [] => false
  | [d] => d.ell && d.ty.isSome && d.init.isNone
  | _ :: ds => lastSetsVararg ds

/-- How many elements carry an initializer. -/
def countInits : List EltDesc → Nat
  | [] => 0
  | d :: ds => (if d.init.isSome then 1 else 0) + countInits ds

/-- The default-argument contexts created while parsing the elements, with
their argument indices, starting from counter values idx and ctx. -/
def expectedCreated (u : Bool) (idx ctx : Nat) : List EltDesc → List (Nat × Nat)
  | [] => []
  | d :: ds =>
    match d.init with
    | some _ =>
      (ctx, if u then idx else 0) ::
        expectedCreated u (if u then idx + 1 else idx) (ctx + 1) ds
    | none => expectedCreated u (if u then idx + 1 else idx) ctx ds

/-- The default-argument contexts destroyed while parsing the elements
(those whose initializer contains no closures). -/
def expectedDestroyed (ctx : Nat) : List EltDesc → List Nat
  | [] => []
  | d :: ds =>
    match d.init with
    | some e => (if e.hasClosures then [] else [ctx]) ++ expectedDestroyed (ctx + 1) ds
    | none => expectedDestroyed ctx ds

/-- The default-argument contexts retained in the manager while parsing the
elements (those whose initializer contains closures, when a manager was
supplied). -/
def expectedRetained (u : Bool) (ctx : Nat) : List EltDesc → List Nat
  | [] => []
  | d :: ds =>
    match d.init with
    | some e => (if e.hasClosures && u then [ctx] else []) ++ expectedRetained u (ctx + 1) ds
    | none => expectedRetained u ctx ds

/-- The parser-state effect of parsing one element of the valid family,
without its ellipsis diagnostics and without the token consumption. -/
def eltCoreEffect (u : Bool) (d : EltDesc) (st : PState) : PState :=
  { st with
    nextIndex := if u then st.nextIndex + 1 else st.nextIndex,
    diags := st.diags ++ (if d.init.isSome && !u then [Diag.nonFuncDeclPatternInit true] else []),
    createdCtxs := st.createdCtxs ++ (match d.init with
      | some _ => [(st.nextCtx, if u then st.nextIndex else 0)]
      | none => []),
    destroyedCtxs := st.destroyedCtxs ++ (match d.init with
      | some e => if e.hasClosures then [] else [st.nextCtx]
      | none => []),
    parsedContexts := st.parsedContexts ++ (match d.init with
      | some e => if e.hasClosures && u then [st.nextCtx] else []
      | none => []),
    nextCtx := st.nextCtx + (if d.init.isSome then 1 else 0) }

/-- The full parser-state effect of one element, ellipsis diagnostics
included. -/
def eltEffect (u isLast : Bool) (d : EltDesc) (st : PState) : PState :=
  let st := eltCoreEffect u d st
  { st with diags := st.diags ++ ellDiagOf isLast d }

/-- The parser-state effect of the whole element list. -/
def tupleEffect (u : Bool) : List EltDesc → PState → PState
  | [], st => st
  | d :: ds, st => tupleEffect u ds (eltEffect u ds.isEmpty d st)

/-- A description of one selector clause after the first: external label,
internal binding name, optional type annotation on the binding. -/
structure SelClauseDesc where
  label : String
  bind : String
  ty : Option TypeRepr
deriving DecidableEq, Repr

/-- The element description of the parenthesized pattern of a selector
clause. -/
def selInnerDesc (c : SelClauseDesc) : EltDesc := ⟨c.bind, c.ty, none, false⟩

/-- The tokens of one selector clause. -/
def renderSelClause (c : SelClauseDesc) : List Tok :=
  Tok.ident c.label :: renderTupleToks [selInnerDesc c]

/-- The tokens of a sequence of selector clauses. -/
def renderSelClauses : List SelClauseDesc → List Tok
  | [] => []
  | c :: cs => renderSelClause c ++ renderSelClauses cs

/-- The body-facing tuple element a selector clause produces. -/
def selBodyElt (c : SelClauseDesc) : TuplePatternElt :=
  .mk (expectedEltPattern true (selInnerDesc c)) none .none

/-- The argument-facing tuple element a selector clause produces: the body
pattern rebuilt around the implicit label binding. -/
def selArgElt (c : SelClauseDesc) : TuplePatternElt :=
  .mk (rebuildImplicitPatternAround (expectedEltPattern true (selInnerDesc c))
        (.named c.label true true))
     none .none

/-- Insert a label into the selector-name table if it is not already
present. -/
def addName (names : List String) (l : String) : List String :=
  if names.contains l then names else names ++ [l]

/-- The redefinition diagnostics a clause sequence emits, given the labels
already seen. -/
def dupDiags (names : List String) : List SelClauseDesc → List Diag
  | [] => []
  | c :: cs =>
    (if names.contains c.label then [Diag.redefinition c.label] else []) ++
      dupDiags (addName names c.label) cs

/-- A token that ends the selector-clause loop without starting another
clause and without being the stray left parenthesis. -/
def isSelectorTerminator : Tok → Bool
  | .ident _ => false
  | .underscore => false
  | .lParen => false
  | _ => true

/-- The argument-facing element list of a selector signature whose first
clause binds b0 (optionally typed ty0) and whose later clauses are cs. -/
def c1ArgList (b0 : String) (ty0 : Option TypeRepr) (cs : List SelClauseDesc) :
    List TuplePatternElt :=
  TuplePatternElt.mk (getFirstSelectorPattern (expectedEltPattern true ⟨b0, ty0, none, false⟩))
      none .none
    :: cs.map selArgElt

/-- The body-facing element list of the same selector signature. -/
def c1BodyList (b0 : String) (ty0 : Option TypeRepr) (cs : List SelClauseDesc) :
    List TuplePatternElt :=
  TuplePatternElt.mk (expectedEltPattern true ⟨b0, ty0, none, false⟩) none .none
    :: cs.map selBodyElt

/-! Theorems. -/

theorem Status.union_psSuccess (s : Status) : s.union psSuccess = s := by
  cases s; simp [Status.union, psSuccess]

theorem createSimple_isParenOrTuple (elts : List TuplePatternElt) (v : Bool) :
    (createSimple elts v).isParenOrTuple = true := by
  unfold createSimple
  split <;> rfl

/-- parsePatternTuple always returns a pattern, and that pattern is a paren
or tuple node. -/
theorem parsePatternTuple_shape (pf : Nat) (u isLet : Bool) (st : PState) :
    ∃ p, (parsePatternTuple pf u isLet st).1 = some p ∧ p.isParenOrTuple = true := by
  cases pf with
  | zero => exact ⟨emptyTuplePattern, rfl, rfl⟩
  | succ n =>
    rw [parsePatternTuple]
    by_cases h : (st.advance).cur = Tok.rParen
    · rw [if_pos h]
      exact ⟨createSimple [] false, rfl, createSimple_isParenOrTuple [] false⟩
    · rw [if_neg h]
      exact ⟨_, rfl, createSimple_isParenOrTuple _ _⟩

mutual

theorem replaceRoot_cloneImplicit (r : Pattern) :
    ∀ p, replaceRoot r (cloneImplicit p) = rebuildImplicitSpec p r
  | .anyP _ => rfl
  | .named _ _ _ => rfl
  | .paren s _ => by
    simp only [cloneImplicit, replaceRoot, rebuildImplicitSpec, replaceRoot_cloneImplicit r s]
  | .typed _ _ _ => rfl
  | .tuple es _ _ => by
    simp only [cloneImplicit, replaceRoot, rebuildImplicitSpec, replaceRootElts_cloneImplicitElts r es]
  | .varP _ s _ => by
    simp only [cloneImplicit, replaceRoot, rebuildImplicitSpec, replaceRoot_cloneImplicit r s]
  | .exprP _ _ => rfl
  | .isaP _ _ => rfl

theorem replaceRootElts_cloneImplicitElts (r : Pattern) :
    ∀ es, replaceRootElts r (cloneImplicitElts es) = rebuildImplicitSpecElts es r
  | [] => rfl
  | .mk p i k :: es => by
    simp only [cloneImplicitElts, cloneImplicitElt, replaceRootElts, replaceRootElt,
      rebuildImplicitSpecElts, replaceRoot_cloneImplicit r p,
      replaceRootElts_cloneImplicitElts r es]

end

/-- C6.  rebuildImplicitPatternAround clones its source pattern (all new
nodes marked implicit) and substitutes the replacement subtree at every Typed
node's immediate subpattern (descending no further) and at every Named or Any
leaf, preserving the tuple, paren, typed and var nesting of the source: it
coincides with the one-pass rewrite rebuildImplicitSpec, which states exactly
that contract. -/
theorem claim_C6 (p r : Pattern) :
    rebuildImplicitPatternAround p r = rebuildImplicitSpec p r :=
  replaceRoot_cloneImplicit r p

/-- C10.  For a default-argument initializer parse, the provisional context
is created with the supplied argument index; it is destroyed exactly when the
initializer contains no closures, and retained in the manager exactly when
the initializer contains closures and a manager was supplied; with closures
and no manager it is neither destroyed nor retained. -/
theorem claim_C10 (u : Bool) (argIndex : Nat) (e : Expr) (rest : List Tok) (st : PState)
    (htoks : st.toks = Tok.equal :: .exprTok e :: rest) :
    parseDefaultArgument u argIndex st =
      (psSuccess, some e,
       { st with
           toks := rest,
           createdCtxs := st.createdCtxs ++ [(st.nextCtx, argIndex)],
           destroyedCtxs := st.destroyedCtxs ++ (if e.hasClosures then [] else [st.nextCtx]),
           parsedContexts :=
             st.parsedContexts ++ (if e.hasClosures && u then [st.nextCtx] else []),
           diags := st.diags ++ (if u then [] else [Diag.nonFuncDeclPatternInit true]),
           nextCtx := st.nextCtx + 1 }) ∧
    (e.hasClosures = false ↔
      (parseDefaultArgument u argIndex st).2.2.destroyedCtxs =
        st.destroyedCtxs ++ [st.nextCtx]) ∧
    ((e.hasClosures = true ∧ u = true) ↔
      (parseDefaultArgument u argIndex st).2.2.parsedContexts =
        st.parsedContexts ++ [st.nextCtx]) ∧
    (e.hasClosures = true ∧ u = false →
      (parseDefaultArgument u argIndex st).2.2.destroyedCtxs = st.destroyedCtxs ∧
      (parseDefaultArgument u argIndex st).2.2.parsedContexts = st.parsedContexts) := by
  obtain ⟨toks, ivl, dgs, ni, pcs, ccs, dcs, nc⟩ := st
  simp only at htoks
  subst htoks
  cases hce : e.hasClosures <;> cases u <;>
    simp [parseDefaultArgument, parseExpr, PState.cur, PState.advance, PState.addDiag,
      psSuccess, hce]

/-- A successful default-argument parse: the context is created with the
supplied index, destroyed or retained according to the closure content, the
no-manager diagnostic is emitted when no manager was supplied, and the parsed
expression is handed back. -/
theorem parseDefaultArgument_run (u : Bool) (argIndex : Nat) (e : Expr) (rest : List Tok)
    (st : PState) (htoks : st.toks = Tok.equal :: .exprTok e :: rest) :
    parseDefaultArgument u argIndex st =
      (psSuccess, some e,
       { st with
           toks := rest,
           createdCtxs := st.createdCtxs ++ [(st.nextCtx, argIndex)],
           destroyedCtxs := st.destroyedCtxs ++ (if e.hasClosures then [] else [st.nextCtx]),
           parsedContexts :=
             st.parsedContexts ++ (if e.hasClosures && u then [st.nextCtx] else []),
           diags := st.diags ++ (if u then [] else [Diag.nonFuncDeclPatternInit true]),
           nextCtx := st.nextCtx + 1 }) := by
  obtain ⟨toks, ivl, dgs, ni, pcs, ccs, dcs, nc⟩ := st
  simp only at htoks
  subst htoks
  cases hce : e.hasClosures <;> cases u <;>
    simp [parseDefaultArgument, parseExpr, PState.cur, PState.advance, PState.addDiag,
      psSuccess, hce]

/-- parsePatternAtom on an identifier token parses a binding. -/
theorem parsePatternAtom_ident (n : Nat) (isLet : Bool) (nm : String) (rest : List Tok)
    (st : PState) (htoks : st.toks = .ident nm :: rest) :
    parsePatternAtom (n + 1) isLet st =
      (some (.named nm isLet false), psSuccess, { st with toks := rest }) := by
  obtain ⟨toks, ivl, dgs, ni, pcs, ccs, dcs, nc⟩ := st
  simp only at htoks
  subst htoks
  rw [parsePatternAtom]
  simp [PState.cur, PState.advance, parsePatternIdentifier]

/-- parsePattern on an identifier token not followed by a colon parses a
plain binding. -/
theorem parsePattern_untyped (n : Nat) (isLet : Bool) (nm : String) (rest : List Tok)
    (st : PState) (htoks : st.toks = .ident nm :: rest)
    (hcol : rest.headD .eof ≠ .colon) :
    parsePattern (n + 2) isLet st =
      (some (.named nm isLet false), psSuccess, { st with toks := rest }) := by
  rw [parsePattern, parsePatternAtom_ident n isLet nm rest st htoks]
  have hcol2 : rest.head?.getD Tok.eof ≠ Tok.colon := by simpa using hcol
  simp [PState.cur, htoks, hcol2]

/-- parsePattern on an identifier token followed by a colon and a type token
parses a typed binding. -/
theorem parsePattern_typed (n : Nat) (isLet : Bool) (nm : String) (t : TypeRepr)
    (rest : List Tok) (st : PState)
    (htoks : st.toks = .ident nm :: .colon :: .typeTok t :: rest) :
    parsePattern (n + 2) isLet st =
      (some (.typed (.named nm isLet false) t false), psSuccess,
       { st with toks := rest }) := by
  rw [parsePattern,
    parsePatternAtom_ident n isLet nm (Tok.colon :: .typeTok t :: rest) st htoks]
  simp [PState.cur, PState.advance, parseTypeAnn, psSuccess, htoks]

/-- One element of the valid family parses to its expected TuplePatternElt
with a success status, consuming exactly its own tokens and effecting exactly
eltCoreEffect on the parser state. -/
theorem parsePatternTupleElement_family (f n : Nat) (u isLet : Bool) (d : EltDesc)
    (after : List Tok) (st : PState) (hf : f = n + 3)
    (htoks : st.toks = renderEltCore d ++ after)
    (hc : after.headD .eof ≠ .colon) (he : after.headD .eof ≠ .equal) :
    parsePatternTupleElement f u isLet st =
      (psSuccess, some (expectedElt isLet d), { eltCoreEffect u d st with toks := after }) := by
  subst hf
  obtain ⟨nm, ty, ini, el⟩ := d
  obtain ⟨toks, ivl, dgs, ni, pcs, ccs, dcs, nc⟩ := st
  simp only at htoks
  subst htoks
  have he2 : after.head?.getD Tok.eof ≠ Tok.equal := by simpa using he
  rw [parsePatternTupleElement]
  cases ini with
  | none =>
    cases ty with
    | none =>
      cases u <;>
        (simp only [reduceIte]
         rw [parsePattern_untyped n isLet nm after _ (by simp [renderEltCore]) hc]) <;>
        simp [PState.cur, eltCoreEffect, expectedElt, expectedEltPattern,
          getDefaultArgKind, psSuccess, he2]
    | some t =>
      cases u <;>
        (simp only [reduceIte]
         rw [parsePattern_typed n isLet nm t after _ (by simp [renderEltCore])]) <;>
        simp [PState.cur, eltCoreEffect, expectedElt, expectedEltPattern,
          getDefaultArgKind, psSuccess, he2]
  | some e =>
    cases ty with
    | none =>
      cases u <;>
        (simp only [reduceIte]
         rw [parsePattern_untyped n isLet nm (Tok.equal :: .exprTok e :: after) _
              (by simp [renderEltCore]) (by simp)]
         rw [parseDefaultArgument_run _ _ e after _ (by simp)]) <;>
        simp [PState.cur, eltCoreEffect, expectedElt, expectedEltPattern, psSuccess]
    | some t =>
      cases u <;>
        (simp only [reduceIte]
         rw [parsePattern_typed n isLet nm t (Tok.equal :: .exprTok e :: after) _
              (by simp [renderEltCore])]
         rw [parseDefaultArgument_run _ _ e after _ (by simp)]) <;>
        simp [PState.cur, eltCoreEffect, expectedElt, expectedEltPattern, psSuccess]

theorem eltEffect_toks_comm (u isLast : Bool) (d : EltDesc) (s : PState) (x : List Tok) :
    eltEffect u isLast d { s with toks := x } = { eltEffect u isLast d s with toks := x } := by
  obtain ⟨toks, ivl, dgs, ni, pcs, ccs, dcs, nc⟩ := s
  simp [eltEffect, eltCoreEffect]

theorem tupleEffect_toks_comm (u : Bool) :
    ∀ (ds : List EltDesc) (s : PState) (x : List Tok),
      tupleEffect u ds { s with toks := x } = { tupleEffect u ds s with toks := x }
  | [], _, _ => rfl
  | d :: ds, s, x => by
    rw [tupleEffect, tupleEffect, eltEffect_toks_comm, tupleEffect_toks_comm u ds]

theorem renderEltDescs_head_cons (d : EltDesc) (ds : List EltDesc) :
    (renderEltDescs (d :: ds)).head? = some (Tok.ident d.name) := by
  cases ds <;> simp [renderEltDescs, renderEltDesc, renderEltCore]

theorem renderEltDescs_cons_ne (d : EltDesc) (ds : List EltDesc) (h : ds ≠ []) :
    renderEltDescs (d :: ds) = renderEltDesc d ++ Tok.comma :: renderEltDescs ds := by
  cases ds with
  | nil => exact absurd rfl h
  | cons d2 ds2 => simp [renderEltDescs]

/-- The element loop of parsePatternTuple over a non-empty valid element
family: it collects the expected elements in order, sets the ellipsis flag
exactly when the final element is a typed, initializer-free variadic
element, keeps the incoming status, and effects tupleEffect on the state. -/
theorem parsePatternTupleBody_family :
    ∀ (ds : List EltDesc) (f n : Nat) (u isLet : Bool) (elts : List TuplePatternElt)
      (ell : Bool) (stat : Status) (rest : List Tok) (st : PState),
      ds ≠ [] → f = n + 4 * ds.length →
      st.toks = renderEltDescs ds ++ Tok.rParen :: rest →
      parsePatternTupleBody f u isLet elts ell stat st =
        (stat, elts ++ ds.map (expectedElt isLet),
         (if lastSetsVararg ds then true else ell),
         tupleEffect u ds { st with toks := rest }) := by
  intro ds
  induction ds with
  | nil => intro _ _ _ _ _ _ _ _ _ hne; exact absurd rfl hne
  | cons d ds ih =>
    intro f n u isLet elts ell stat rest st _ hf htoks
    cases ds with
    | nil =>
      subst hf
      rw [show n + 4 * [d].length = (n + 3) + 1 by simp]
      rw [parsePatternTupleBody]
      rw [parsePatternTupleElement_family (n + 3) n u isLet d
        ((if d.ell then [Tok.ellipsis] else []) ++ (Tok.rParen :: rest)) st rfl
        (by simp [htoks, renderEltDescs, renderEltDesc])
        (by cases hel : d.ell <;> simp [hel])
        (by cases hel : d.ell <;> simp [hel])]
      obtain ⟨nm, ty, ini, el⟩ := d
      cases el <;> cases ini <;> cases ty <;>
        simp [PState.cur, PState.advance, PState.addDiag, expectedElt, expectedEltPattern,
          Pattern.isTyped, TuplePatternElt.getInit, TuplePatternElt.getPattern,
          tupleEffect, eltEffect, eltCoreEffect, ellDiagOf, lastSetsVararg,
          Status.union, psSuccess, psCC]
    | cons d2 ds2 =>
      subst hf
      rw [show n + 4 * (d :: d2 :: ds2).length = (n + 4 * (d2 :: ds2).length + 3) + 1 by
        simp [List.length_cons]; ring]
      rw [parsePatternTupleBody]
      rw [parsePatternTupleElement_family (n + 4 * (d2 :: ds2).length + 3)
        (n + 4 * (d2 :: ds2).length) u isLet d
        ((if d.ell then [Tok.ellipsis] else []) ++
          (Tok.comma :: (renderEltDescs (d2 :: ds2) ++ Tok.rParen :: rest))) st rfl
        (by simp [htoks, renderEltDescs_cons_ne d (d2 :: ds2) (by simp), renderEltDesc])
        (by cases hel : d.ell <;> simp [hel])
        (by cases hel : d.ell <;> simp [hel])]
      have key : ∀ (f2 : Nat) (s : PState) (elts2 : List TuplePatternElt) (ell2 : Bool),
          f2 = n + 4 * (d2 :: ds2).length + 3 →
          s.toks = renderEltDescs (d2 :: ds2) ++ Tok.rParen :: rest →
          parsePatternTupleBody f2 u isLet elts2 ell2 stat s =
            (stat, elts2 ++ (d2 :: ds2).map (expectedElt isLet),
             (if lastSetsVararg (d2 :: ds2) then true else ell2),
             tupleEffect u (d2 :: ds2) { s with toks := rest }) :=
        fun f2 s elts2 ell2 hf2 hs =>
          ih f2 (n + 3) u isLet elts2 ell2 stat rest s (by simp) (by rw [hf2]; ring) hs
      obtain ⟨nm, ty, ini, el⟩ := d
      cases el <;> cases ini <;> cases ty <;>
        simp [key, PState.cur, PState.advance, PState.addDiag, expectedElt, expectedEltPattern,
          Pattern.isTyped, TuplePatternElt.getInit, TuplePatternElt.getPattern,
          tupleEffect, eltEffect, eltCoreEffect, ellDiagOf, lastSetsVararg,
          renderEltDescs_head_cons, Status.union, psSuccess, psCC, List.append_assoc]

/-- parsePatternTuple over a valid element family: success status, the
expected element list assembled by createSimple, the variadic flag set
exactly when the final element is a typed, initializer-free variadic
element, and the tupleEffect state change. -/
theorem parsePatternTuple_family (f n : Nat) (ds : List EltDesc) (u isLet : Bool)
    (rest : List Tok) (st : PState) (hf : f = n + 4 * ds.length + 1)
    (htoks : st.toks = renderTupleToks ds ++ rest) :
    parsePatternTuple f u isLet st =
      (some (createSimple (ds.map (expectedElt isLet)) (lastSetsVararg ds)), psSuccess,
       tupleEffect u ds { st with toks := rest }) := by
  subst hf
  rw [parsePatternTuple]
  cases ds with
  | nil =>
    simp [htoks, renderTupleToks, renderEltDescs, PState.cur, PState.advance, tupleEffect,
      lastSetsVararg]
  | cons d ds2 =>
    rw [if_neg (by simp [htoks, renderTupleToks, PState.cur, PState.advance,
      renderEltDescs_head_cons])]
    rw [parsePatternTupleBody_family (d :: ds2) (n + 4 * (d :: ds2).length) n u isLet []
      false psSuccess rest st.advance (by simp) rfl
      (by simp [htoks, renderTupleToks, PState.advance])]
    simp [PState.advance, htoks]

theorem tupleEffect_toks (u : Bool) :
    ∀ (ds : List EltDesc) (s : PState), (tupleEffect u ds s).toks = s.toks
  | [], _ => rfl
  | d :: ds, s => by rw [tupleEffect, tupleEffect_toks u ds]; simp [eltEffect, eltCoreEffect]

theorem tupleEffect_inVarOrLet (u : Bool) :
    ∀ (ds : List EltDesc) (s : PState), (tupleEffect u ds s).inVarOrLet = s.inVarOrLet
  | [], _ => rfl
  | d :: ds, s => by
    rw [tupleEffect, tupleEffect_inVarOrLet u ds]; simp [eltEffect, eltCoreEffect]

theorem tupleEffect_diags (u : Bool) :
    ∀ (ds : List EltDesc) (s : PState),
      (tupleEffect u ds s).diags = s.diags ++ expectedDiags u ds
  | [], _ => by simp [tupleEffect, expectedDiags]
  | d :: ds, s => by
    rw [tupleEffect, tupleEffect_diags u ds, expectedDiags]
    simp [eltEffect, eltCoreEffect, expectedEltDiags, List.append_assoc]

theorem tupleEffect_nextIndex (u : Bool) :
    ∀ (ds : List EltDesc) (s : PState),
      (tupleEffect u ds s).nextIndex = if u then s.nextIndex + ds.length else s.nextIndex
  | [], s => by cases u <;> simp [tupleEffect]
  | d :: ds, s => by
    rw [tupleEffect, tupleEffect_nextIndex u ds]
    cases u <;> simp [eltEffect, eltCoreEffect, List.length_cons] <;> ring

theorem tupleEffect_nextCtx (u : Bool) :
    ∀ (ds : List EltDesc) (s : PState),
      (tupleEffect u ds s).nextCtx = s.nextCtx + countInits ds
  | [], s => by simp [tupleEffect, countInits]
  | d :: ds, s => by
    rw [tupleEffect, tupleEffect_nextCtx u ds, countInits]
    cases hini : d.init <;> simp [eltEffect, eltCoreEffect, hini] <;> ring

theorem tupleEffect_created (u : Bool) :
    ∀ (ds : List EltDesc) (s : PState),
      (tupleEffect u ds s).createdCtxs =
        s.createdCtxs ++ expectedCreated u s.nextIndex s.nextCtx ds
  | [], s => by simp [tupleEffect, expectedCreated]
  | d :: ds, s => by
    rw [tupleEffect, tupleEffect_created u ds, expectedCreated]
    cases hini : d.init <;>
      cases u <;>
      simp [eltEffect, eltCoreEffect, hini, List.append_assoc]

theorem tupleEffect_destroyed (u : Bool) :
    ∀ (ds : List EltDesc) (s : PState),
      (tupleEffect u ds s).destroyedCtxs =
        s.destroyedCtxs ++ expectedDestroyed s.nextCtx ds
  | [], s => by simp [tupleEffect, expectedDestroyed]
  | d :: ds, s => by
    rw [tupleEffect, tupleEffect_destroyed u ds, expectedDestroyed]
    cases hini : d.init <;>
      simp [eltEffect, eltCoreEffect, hini, List.append_assoc]

theorem tupleEffect_retained (u : Bool) :
    ∀ (ds : List EltDesc) (s : PState),
      (tupleEffect u ds s).parsedContexts =
        s.parsedContexts ++ expectedRetained u s.nextCtx ds
  | [], s => by simp [tupleEffect, expectedRetained]
  | d :: ds, s => by
    rw [tupleEffect, tupleEffect_retained u ds, expectedRetained]
    cases hini : d.init <;>
      simp [eltEffect, eltCoreEffect, hini, List.append_assoc]

theorem fields_createSimple_family (isLet : Bool) (ds : List EltDesc) (v : Bool) :
    (createSimple (ds.map (expectedElt isLet)) v).fields = ds.map (expectedElt isLet) := by
  match ds, v with
  | [], v => simp [createSimple, Pattern.fields]
  | [d], true => simp [createSimple, Pattern.fields]
  | [d], false =>
    cases hini : d.init <;>
      simp [createSimple, expectedElt, getDefaultArgKind, hini, Pattern.fields]
  | d1 :: d2 :: ds, v => simp [createSimple, Pattern.fields]

theorem hasVarargFlag_createSimple (elts : List TuplePatternElt) (v : Bool) :
    (createSimple elts v).hasVarargFlag = v := by
  unfold createSimple
  split
  · rfl
  · rfl

theorem isTupleNode_createSimple_family (isLet : Bool) (ds : List EltDesc) (v : Bool) :
    ((createSimple (ds.map (expectedElt isLet)) v).isTupleNode = false ↔
      ds.length = 1 ∧ v = false ∧ countInits ds = 0) := by
  match ds, v with
  | [], v => simp [createSimple, Pattern.isTupleNode]
  | [d], true => simp [createSimple, Pattern.isTupleNode, countInits]
  | [d], false =>
    cases hini : d.init <;>
      simp [createSimple, expectedElt, getDefaultArgKind, hini, Pattern.isTupleNode, countInits]
  | d1 :: d2 :: ds, v => simp [createSimple, Pattern.isTupleNode]

theorem mem_expectedDiags_of_both (u : Bool) :
    ∀ (ds : List EltDesc) (i : Nat) (hi : i < ds.length),
      (ds.get ⟨i, hi⟩).init.isSome = true → (ds.get ⟨i, hi⟩).ell = true →
      Diag.tupleEllipsisInit ∈ expectedDiags u ds
  | [], i, hi => absurd hi (by simp)
  | d :: ds, 0, _ => by
    intro hinit hell
    simp only [List.get] at hinit hell
    rw [expectedDiags]
    refine List.mem_append_left _ ?_
    simp [expectedEltDiags, ellDiagOf, hinit, hell]
  | d :: ds, i + 1, hi => by
    intro hinit hell
    simp only [List.get] at hinit hell
    rw [expectedDiags]
    exact List.mem_append_right _
      (mem_expectedDiags_of_both u ds i (by simpa using hi) hinit hell)

theorem lastSetsVararg_false_of_last_init :
    ∀ (ds : List EltDesc) (i : Nat) (hi : i < ds.length),
      i + 1 = ds.length → (ds.get ⟨i, hi⟩).init.isSome = true →
      lastSetsVararg ds = false
  | [], i, hi => absurd hi (by simp)
  | [d], 0, _ => by
    intro _ hinit
    simp only [List.get] at hinit
    simp [lastSetsVararg, Option.isNone_iff_eq_none]
    intro _ _
    cases hd : d.init
    · rw [hd] at hinit; simp at hinit
    · simp [hd]
  | [d], i + 1, hi => by intro hlen _; simp at hlen
  | d :: d2 :: ds, 0, _ => by intro hlen _; simp at hlen
  | d :: d2 :: ds, i + 1, hi => by
    intro hlen hinit
    simp only [List.get] at hinit
    exact lastSetsVararg_false_of_last_init (d2 :: ds) i (by simpa using hi)
      (by simp only [List.length_cons] at hlen ⊢; omega) hinit

theorem mem_expectedCreated :
    ∀ (ds : List EltDesc) (idx ctx i : Nat) (hi : i < ds.length) (e : Expr),
      (ds.get ⟨i, hi⟩).init = some e →
      ∃ c, (c, idx + i) ∈ expectedCreated true idx ctx ds
  | [], _, _, i, hi => absurd hi (by simp)
  | d :: ds, idx, ctx, 0, _ => by
    intro e hinit
    simp only [List.get] at hinit
    rw [expectedCreated, hinit]
    exact ⟨ctx, by simp⟩
  | d :: ds, idx, ctx, i + 1, hi => by
    intro e hinit
    simp only [List.get] at hinit
    rw [expectedCreated]
    obtain ⟨c, hc⟩ :=
      mem_expectedCreated ds (idx + 1) (if d.init.isSome then ctx + 1 else ctx) i
        (by simpa using hi) e hinit
    refine ⟨c, ?_⟩
    have harith : idx + 1 + i = idx + (i + 1) := by ring
    rw [harith] at hc
    cases hd : d.init with
    | none => simpa [hd] using hc
    | some e2 =>
      simp only [hd]
      exact List.mem_cons_of_mem _ (by simpa [hd] using hc)

/-- C2 (amended).  A tuple element parsed with a null default-argument
manager whose pattern is followed by an initializer is diagnosed with the
fixItRemove covering the initializer text, the element parse reports
success, and the resulting TuplePatternElt carries the parsed initializer
expression (the initializer is recorded, not discarded; only the provisional
context is discarded, and no default-argument index is consumed). -/
theorem claim_C2 (f n : Nat) (isLet : Bool) (nm : String) (ty : Option TypeRepr) (e : Expr)
    (after : List Tok) (st : PState) (hf : f = n + 3)
    (htoks : st.toks = renderEltCore ⟨nm, ty, some e, false⟩ ++ after)
    (hc : after.headD .eof ≠ .colon) (he : after.headD .eof ≠ .equal) :
    parsePatternTupleElement f false isLet st =
      (psSuccess,
       some (.mk (expectedEltPattern isLet ⟨nm, ty, some e, false⟩) (some e)
         (getDefaultArgKind (some e))),
       { st with
           toks := after,
           diags := st.diags ++ [Diag.nonFuncDeclPatternInit true],
           createdCtxs := st.createdCtxs ++ [(st.nextCtx, 0)],
           destroyedCtxs := st.destroyedCtxs ++ (if e.hasClosures then [] else [st.nextCtx]),
           nextCtx := st.nextCtx + 1 }) := by
  rw [parsePatternTupleElement_family f n false isLet ⟨nm, ty, some e, false⟩ after st hf
    htoks hc he]
  obtain ⟨toks, ivl, dgs, ni, pcs, ccs, dcs, nc⟩ := st
  simp [eltCoreEffect, expectedElt]

/-- Witness for C2 at a concrete input. -/
theorem claim_C2_witness :
    parsePatternTupleElement 3 false true
        (initState [.ident "x", .equal, .exprTok (.plainE 0 false)]) =
      (psSuccess,
       some (.mk (.named "x" true false) (some (.plainE 0 false)) .normal),
       ⟨[], none, [Diag.nonFuncDeclPatternInit true], 0, [], [(0, 0)], [0], 1⟩) :=
  claim_C2 3 0 true "x" none (.plainE 0 false) [] _ rfl rfl (by simp) (by simp)

/-- Counterexample to C2 as stated: at a concrete bare-pattern input with an
initializer and no manager, the parse succeeds and diagnoses, but the
resulting TuplePatternElt does carry the parsed initializer expression
rather than discarding it. -/
theorem claim_C2_counterexample :
    (parsePatternTupleElement 3 false true
        (initState [.ident "x", .equal, .exprTok (.plainE 0 false)])).2.1 =
      some (.mk (.named "x" true false) (some (.plainE 0 false)) .normal) ∧
    (TuplePatternElt.mk (.named "x" true false) (some (.plainE 0 false)) .normal).getInit ≠
      none ∧
    (parsePatternTupleElement 3 false true
        (initState [.ident "x", .equal, .exprTok (.plainE 0 false)])).1 = psSuccess ∧
    (parsePatternTupleElement 3 false true
        (initState [.ident "x", .equal, .exprTok (.plainE 0 false)])).2.2.diags =
      [Diag.nonFuncDeclPatternInit true] :=
  ⟨rfl, by simp [TuplePatternElt.getInit], rfl, rfl⟩

/-- C3 (amended).  Parsing a syntactically valid tuple pattern with N
elements and optional ellipses succeeds and yields a pattern whose element
list is exactly the N expected elements in source order; the variadic flag is
set iff the ellipsis sits on the final element, that element is typed and it
has no initializer; the node is a Tuple node except in the single-element,
non-variadic, initializer-free case, where a Paren node wrapping the element
pattern is produced; a non-final or untyped ellipsis only adds a diagnostic
(reflected in expectedDiags) and never marks the tuple variadic. -/
theorem claim_C3 (f n : Nat) (ds : List EltDesc) (u isLet : Bool) (rest : List Tok)
    (st : PState) (hf : f = n + 4 * ds.length + 1)
    (htoks : st.toks = renderTupleToks ds ++ rest) :
    ∃ p st2,
      parsePatternTuple f u isLet st = (some p, psSuccess, st2) ∧
      p.fields = ds.map (expectedElt isLet) ∧
      p.fields.length = ds.length ∧
      p.hasVarargFlag = lastSetsVararg ds ∧
      (p.isTupleNode = false ↔
        ds.length = 1 ∧ lastSetsVararg ds = false ∧ countInits ds = 0) ∧
      st2.diags = st.diags ++ expectedDiags u ds ∧
      st2.toks = rest := by
  refine ⟨_, _, parsePatternTuple_family f n ds u isLet rest st hf htoks,
    fields_createSimple_family isLet ds _, ?_, hasVarargFlag_createSimple _ _,
    isTupleNode_createSimple_family isLet ds _, ?_, ?_⟩
  · rw [fields_createSimple_family isLet ds _]; simp
  · rw [tupleEffect_diags]
  · rw [tupleEffect_toks]

/-- Witness for C3 at a concrete input. -/
theorem claim_C3_witness :
    ∃ p st2,
      parsePatternTuple 10 true true
          (initState (renderTupleToks [⟨"x", some (.namedT "T"), none, false⟩,
            ⟨"y", none, some (.plainE 1 false), false⟩])) =
        (some p, psSuccess, st2) ∧
      p.fields = [⟨"x", some (.namedT "T"), none, false⟩,
        ⟨"y", none, some (.plainE 1 false), false⟩].map (expectedElt true) ∧
      p.fields.length = 2 ∧
      p.hasVarargFlag = lastSetsVararg [⟨"x", some (.namedT "T"), none, false⟩,
        ⟨"y", none, some (.plainE 1 false), false⟩] ∧
      (p.isTupleNode = false ↔ (2 : Nat) = 1 ∧
        lastSetsVararg [⟨"x", some (.namedT "T"), none, false⟩,
          ⟨"y", none, some (.plainE 1 false), false⟩] = false ∧
        countInits [⟨"x", some (.namedT "T"), none, false⟩,
          ⟨"y", none, some (.plainE 1 false), false⟩] = 0) ∧
      st2.diags = [] ++ expectedDiags true [⟨"x", some (.namedT "T"), none, false⟩,
        ⟨"y", none, some (.plainE 1 false), false⟩] ∧
      st2.toks = [] :=
  claim_C3 10 1 [⟨"x", some (.namedT "T"), none, false⟩,
    ⟨"y", none, some (.plainE 1 false), false⟩] true true [] _ rfl (by simp [initState])

/-- Counterexample to C3 as stated: the concrete valid one-element tuple
pattern input yields a Paren node, not a Tuple node. -/
theorem claim_C3_counterexample :
    (parsePatternTuple 5 true true (initState [.lParen, .ident "x", .rParen])).1 =
      some (Pattern.paren (.named "x" true false) false) ∧
    (Pattern.paren (.named "x" true false) false).isTupleNode = false :=
  ⟨rfl, rfl⟩

/-- C4.  A tuple element carrying both an initializer and an ellipsis always
produces the ellipsis-with-initializer diagnostic, the element parse (and the
whole list parse) reports success, and that element's ellipsis is treated as
absent: the variadic flag is governed only by lastSetsVararg, which requires
an initializer-free final element, so if the offending element is final the
tuple is not variadic. -/
theorem claim_C4 (f n : Nat) (ds : List EltDesc) (u isLet : Bool) (rest : List Tok)
    (st : PState) (i : Nat) (hf : f = n + 4 * ds.length + 1)
    (htoks : st.toks = renderTupleToks ds ++ rest) (hi : i < ds.length)
    (hinit : (ds.get ⟨i, hi⟩).init.isSome = true)
    (hell : (ds.get ⟨i, hi⟩).ell = true) :
    ∃ p st2,
      parsePatternTuple f u isLet st = (some p, psSuccess, st2) ∧
      Diag.tupleEllipsisInit ∈ st2.diags ∧
      p.hasVarargFlag = lastSetsVararg ds ∧
      (i + 1 = ds.length → p.hasVarargFlag = false) := by
  refine ⟨_, _, parsePatternTuple_family f n ds u isLet rest st hf htoks, ?_,
    hasVarargFlag_createSimple _ _, ?_⟩
  · rw [tupleEffect_diags]
    simp only [PState.diags]
    exact List.mem_append_right _ (mem_expectedDiags_of_both u ds i hi hinit hell)
  · intro hlen
    rw [hasVarargFlag_createSimple _ _]
    exact lastSetsVararg_false_of_last_init ds i hi hlen hinit

/-- Witness for C4 at a concrete input. -/
theorem claim_C4_witness :
    ∃ p st2,
      parsePatternTuple 6 true true
          (initState (renderTupleToks [⟨"x", some (.namedT "T"), some (.plainE 2 false),
            true⟩])) =
        (some p, psSuccess, st2) ∧
      Diag.tupleEllipsisInit ∈ st2.diags ∧
      p.hasVarargFlag = lastSetsVararg [⟨"x", some (.namedT "T"), some (.plainE 2 false),
        true⟩] ∧
      (0 + 1 = 1 → p.hasVarargFlag = false) :=
  claim_C4 6 1 [⟨"x", some (.namedT "T"), some (.plainE 2 false), true⟩] true true [] _ 0
    rfl (by simp [initState]) (by simp) (by simp) (by simp)

/-- C5.  With a non-null default-argument manager, the default-argument
index assigned to each element of a clause is its 0-based left-to-right
position among all elements: the created contexts carry exactly the indices
base + position for the initializer-carrying elements (independent of which
siblings carry initializers), and the counter ends at base + N because it is
incremented once per element. -/
theorem claim_C5 (f n : Nat) (ds : List EltDesc) (isLet : Bool) (rest : List Tok)
    (st : PState) (hf : f = n + 4 * ds.length + 1)
    (htoks : st.toks = renderTupleToks ds ++ rest) :
    ∃ p st2,
      parsePatternTuple f true isLet st = (some p, psSuccess, st2) ∧
      st2.createdCtxs = st.createdCtxs ++ expectedCreated true st.nextIndex st.nextCtx ds ∧
      st2.nextIndex = st.nextIndex + ds.length ∧
      ∀ (i : Nat) (hi : i < ds.length) (e : Expr), (ds.get ⟨i, hi⟩).init = some e →
        ∃ c, (c, st.nextIndex + i) ∈ st2.createdCtxs := by
  refine ⟨_, _, parsePatternTuple_family f n ds true isLet rest st hf htoks, ?_, ?_, ?_⟩
  · rw [tupleEffect_created]
  · rw [tupleEffect_nextIndex]; simp
  · intro i hi e hinit
    obtain ⟨c, hc⟩ := mem_expectedCreated ds st.nextIndex st.nextCtx i hi e hinit
    refine ⟨c, ?_⟩
    rw [tupleEffect_created]
    simp only [PState.createdCtxs]
    exact List.mem_append_right _ hc

/-- Witness for C10 at a concrete input: an initializer containing closures,
parsed with a manager present, retains the context and does not destroy it. -/
theorem claim_C10_witness :
    parseDefaultArgument true 5 (initState [.equal, .exprTok (.plainE 9 true)]) =
      (psSuccess, some (.plainE 9 true), ⟨[], none, [], 0, [0], [(0, 5)], [], 1⟩) :=
  (claim_C10 true 5 (.plainE 9 true) [] _ rfl).1

/-- Witness for C5 at a concrete input: in (a: T, b = e, c: U) the context
created for b carries index 1. -/
theorem claim_C5_witness :
    ∃ p st2,
      parsePatternTuple 13 true true
          (initState (renderTupleToks [⟨"a", some (.namedT "T"), none, false⟩,
            ⟨"b", none, some (.plainE 3 false), false⟩,
            ⟨"c", some (.namedT "U"), none, false⟩])) =
        (some p, psSuccess, st2) ∧
      st2.createdCtxs = [] ++ expectedCreated true 0 0
        [⟨"a", some (.namedT "T"), none, false⟩,
         ⟨"b", none, some (.plainE 3 false), false⟩,
         ⟨"c", some (.namedT "U"), none, false⟩] ∧
      st2.nextIndex = 0 + 3 ∧
      ∀ (i : Nat) (hi : i < 3) (e : Expr),
        (([⟨"a", some (.namedT "T"), none, false⟩,
           ⟨"b", none, some (.plainE 3 false), false⟩,
           ⟨"c", some (.namedT "U"), none, false⟩] : List EltDesc).get ⟨i, hi⟩).init =
          some e →
        ∃ c, (c, 0 + i) ∈ st2.createdCtxs :=
  claim_C5 13 0 [⟨"a", some (.namedT "T"), none, false⟩,
    ⟨"b", none, some (.plainE 3 false), false⟩,
    ⟨"c", some (.namedT "U"), none, false⟩] true [] _ rfl (by simp [initState])

/-- A loop-terminating token neither starts a binding name nor is a left
parenthesis. -/
theorem selectorTerminator_facts (st : PState) (h : isSelectorTerminator st.cur = true) :
    isAtStartOfBindingName st = false ∧ st.cur ≠ .lParen := by
  cases hc : st.cur <;>
    simp_all [isSelectorTerminator, isAtStartOfBindingName, hc]

/-- One selector clause label(bind[: T]) parsed by parseSelectorArgument: it
appends the label-rebuilt element to the argument vector and the inner
element to the body vector, records the label (diagnosing a duplicate), and
consumes one default-argument index. -/
theorem parseSelectorArgument_clause (pf m : Nat) (c : SelClauseDesc)
    (argElts bodyElts : List TuplePatternElt) (names : List String) (rest : List Tok)
    (st : PState) (hpf : pf = m + 5)
    (htoks : st.toks = renderSelClause c ++ rest) :
    parseSelectorArgument pf argElts bodyElts names st =
      (psSuccess, argElts ++ [selArgElt c], bodyElts ++ [selBodyElt c],
       addName names c.label,
       { st with
           toks := rest,
           diags := st.diags ++
             (if names.contains c.label then [Diag.redefinition c.label] else []),
           nextIndex := st.nextIndex + 1 }) := by
  subst hpf
  obtain ⟨toks, ivl, dgs, ni, pcs, ccs, dcs, nc⟩ := st
  simp only [renderSelClause, List.cons_append] at htoks
  subst htoks
  have key : ∀ (s : PState), s.toks = renderTupleToks [selInnerDesc c] ++ rest →
      parsePatternTuple (m + 5) true true s =
        (some (.paren (expectedEltPattern true (selInnerDesc c)) false), psSuccess,
         { s with toks := rest, nextIndex := s.nextIndex + 1 }) := by
    intro s hs
    rw [parsePatternTuple_family (m + 5) m [selInnerDesc c] true true rest s (by simp) hs]
    obtain ⟨toks2, ivl2, dgs2, ni2, pcs2, ccs2, dcs2, nc2⟩ := s
    simp [createSimple, expectedElt, selInnerDesc, getDefaultArgKind, lastSetsVararg,
      tupleEffect, eltEffect, eltCoreEffect, ellDiagOf]
  have hcur : (renderTupleToks [selInnerDesc c]).head? = some Tok.lParen := by
    simp [renderTupleToks]
  by_cases hdup : c.label ∈ names <;>
    simp [parseSelectorArgument, parsePatternIdentifier, PState.cur, PState.advance,
      PState.addDiag, hdup, hcur, key, addName, selArgElt, selBodyElt,
      getDefaultArgKind, TuplePatternElt.getPattern, TuplePatternElt.getInit,
      Pattern.setImplicit, psSuccess]

/-- The selector-argument loop over a sequence of clauses followed by a
terminating token: every clause appends one element to each vector in order,
labels are collected with duplicate diagnostics, and one default-argument
index is consumed per clause. -/
theorem selectorArgumentLoop_family :
    ∀ (cs : List SelClauseDesc) (lf k pf m : Nat) (argElts bodyElts : List TuplePatternElt)
      (names : List String) (stat : Status) (rest : List Tok) (st : PState),
      lf = k + cs.length + 1 → pf = m + 5 →
      isSelectorTerminator (rest.headD .eof) = true →
      st.toks = renderSelClauses cs ++ rest →
      selectorArgumentLoop lf pf argElts bodyElts names stat st =
        (stat, argElts ++ cs.map selArgElt, bodyElts ++ cs.map selBodyElt,
         { st with
             toks := rest,
             diags := st.diags ++ dupDiags names cs,
             nextIndex := st.nextIndex + cs.length }) := by
  intro cs
  induction cs with
  | nil =>
    intro lf k pf m argElts bodyElts names stat rest st hlf hpf hterm htoks
    subst hlf
    obtain ⟨toks, ivl, dgs, ni, pcs, ccs, dcs, nc⟩ := st
    simp only [renderSelClauses, List.nil_append] at htoks
    subst toks
    obtain ⟨hb, hlp⟩ := selectorTerminator_facts ⟨rest, ivl, dgs, ni, pcs, ccs, dcs, nc⟩
      (by simpa [PState.cur] using hterm)
    simp only [List.length_nil, Nat.add_zero]
    rw [selectorArgumentLoop]
    simp [hb, hlp, dupDiags]
  | cons c cs ih =>
    intro lf k pf m argElts bodyElts names stat rest st hlf hpf hterm htoks
    subst hlf hpf
    obtain ⟨toks, ivl, dgs, ni, pcs, ccs, dcs, nc⟩ := st
    simp only [renderSelClauses, List.append_assoc] at htoks
    subst htoks
    have hb : isAtStartOfBindingName
        ⟨renderSelClause c ++ (renderSelClauses cs ++ rest), ivl, dgs, ni, pcs, ccs, dcs,
         nc⟩ = true := by
      simp [isAtStartOfBindingName, PState.cur, PState.peek, renderSelClause, isStartOfDecl]
    have key : ∀ (s : PState), s.toks = renderSelClauses cs ++ rest →
        selectorArgumentLoop (k + (cs.length + 1)) (m + 5) (argElts ++ [selArgElt c])
            (bodyElts ++ [selBodyElt c]) (addName names c.label) stat s =
          (stat, (argElts ++ [selArgElt c]) ++ cs.map selArgElt,
           (bodyElts ++ [selBodyElt c]) ++ cs.map selBodyElt,
           { s with
               toks := rest,
               diags := s.diags ++ dupDiags (addName names c.label) cs,
               nextIndex := s.nextIndex + cs.length }) :=
      fun s hs => ih (k + (cs.length + 1)) k (m + 5) m (argElts ++ [selArgElt c])
        (bodyElts ++ [selBodyElt c]) (addName names c.label) stat rest s (by omega) rfl
        hterm hs
    simp only [List.length_cons]
    rw [selectorArgumentLoop]
    rw [if_pos hb]
    rw [parseSelectorArgument_clause (m + 5) m c argElts bodyElts names
      (renderSelClauses cs ++ rest)
      ⟨renderSelClause c ++ (renderSelClauses cs ++ rest), ivl, dgs, ni, pcs, ccs, dcs, nc⟩
      rfl rfl]
    simp [key, Status.union_psSuccess, dupDiags, List.append_assoc]
    omega

/-- The placeholder element built from the first clause has an implicit
wildcard leaf. -/
theorem getFirstSelectorPattern_leafOf (b0 : String) (ty0 : Option TypeRepr) :
    (getFirstSelectorPattern (expectedEltPattern true ⟨b0, ty0, none, false⟩)).leafOf =
      .anyP true := by
  cases ty0 <;>
    simp [getFirstSelectorPattern, rebuildImplicitPatternAround, cloneImplicit, replaceRoot,
      expectedEltPattern, Pattern.leafOf]

/-- The argument-facing element of a clause has the implicit label binding as
its leaf. -/
theorem selArgElt_leafOf (c : SelClauseDesc) :
    (selArgElt c).getPattern.leafOf = .named c.label true true := by
  cases hty : c.ty <;>
    simp [selArgElt, TuplePatternElt.getPattern, rebuildImplicitPatternAround, cloneImplicit,
      replaceRoot, expectedEltPattern, selInnerDesc, Pattern.leafOf, hty]

/-- C1.  For a valid selector-style signature whose later clauses are cs,
parseSelectorFunctionArguments appends one argument tuple and one body tuple
whose element lists are c1ArgList and c1BodyList: both have exactly
cs.length + 1 elements in clause order; element 0 of the argument list is the
first-clause element whose leaf is an implicit wildcard, element 0 of the
body list carries the first clause's pattern verbatim, and for every later
position i + 1 the argument element's leaf is clause i's implicit label node
while the body element carries clause i's parenthesized inner pattern. -/
theorem claim_C1 (lf k pf m : Nat) (cs : List SelClauseDesc) (b0 : String)
    (ty0 : Option TypeRepr) (imp0 : Bool) (argPatterns bodyPatterns : List Pattern)
    (rest : List Tok) (st : PState)
    (hlf : lf = k + cs.length + 1) (hpf : pf = m + 5)
    (hterm : isSelectorTerminator (rest.headD .eof) = true)
    (htoks : st.toks = renderSelClauses cs ++ rest) :
    parseSelectorFunctionArguments lf pf argPatterns bodyPatterns
        (.paren (expectedEltPattern true ⟨b0, ty0, none, false⟩) imp0) st =
      (psSuccess,
       argPatterns ++ [.tuple (c1ArgList b0 ty0 cs) false true],
       bodyPatterns ++ [.tuple (c1BodyList b0 ty0 cs) false false],
       { st with
           toks := rest,
           diags := st.diags ++ dupDiags [] cs,
           nextIndex := st.nextIndex + cs.length }) ∧
    (c1ArgList b0 ty0 cs).length = cs.length + 1 ∧
    (c1BodyList b0 ty0 cs).length = cs.length + 1 ∧
    (c1ArgList b0 ty0 cs).get? 0 =
      some (.mk (getFirstSelectorPattern (expectedEltPattern true ⟨b0, ty0, none, false⟩))
        none .none) ∧
    (getFirstSelectorPattern (expectedEltPattern true ⟨b0, ty0, none, false⟩)).leafOf =
      .anyP true ∧
    (c1BodyList b0 ty0 cs).get? 0 =
      some (.mk (expectedEltPattern true ⟨b0, ty0, none, false⟩) none .none) ∧
    (∀ (i : Nat) (hi : i < cs.length),
      (c1ArgList b0 ty0 cs).get? (i + 1) = some (selArgElt (cs.get ⟨i, hi⟩)) ∧
      (selArgElt (cs.get ⟨i, hi⟩)).getPattern.leafOf =
        .named (cs.get ⟨i, hi⟩).label true true ∧
      (c1BodyList b0 ty0 cs).get? (i + 1) = some (selBodyElt (cs.get ⟨i, hi⟩)) ∧
      (selBodyElt (cs.get ⟨i, hi⟩)).getPattern =
        expectedEltPattern true (selInnerDesc (cs.get ⟨i, hi⟩))) := by
  refine ⟨?_, by simp [c1ArgList], by simp [c1BodyList], by simp [c1ArgList],
    getFirstSelectorPattern_leafOf b0 ty0, by simp [c1BodyList], ?_⟩
  · simp only [parseSelectorFunctionArguments]
    rw [selectorArgumentLoop_family cs lf k pf m
      [TuplePatternElt.mk
        (getFirstSelectorPattern (expectedEltPattern true ⟨b0, ty0, none, false⟩)) none .none]
      [TuplePatternElt.mk (expectedEltPattern true ⟨b0, ty0, none, false⟩) none .none]
      [] psSuccess rest st hlf hpf hterm htoks]
    simp [c1ArgList, c1BodyList]
  · intro i hi
    refine ⟨?_, selArgElt_leafOf _, ?_, rfl⟩
    · simp [c1ArgList, List.get?_map, List.get?_eq_get hi]
      exact ⟨_, List.getElem?_eq_getElem hi, rfl⟩
    · simp [c1BodyList, List.get?_map, List.get?_eq_get hi]
      exact ⟨_, List.getElem?_eq_getElem hi, rfl⟩

/-- Witness for C1 at a concrete input: first clause binds w, one later
clause a(x), terminated by a left brace. -/
theorem claim_C1_witness :
    parseSelectorFunctionArguments 2 5 [] []
        (.paren (expectedEltPattern true ⟨"w", none, none, false⟩) false)
        (initState (renderSelClauses [⟨"a", "x", none⟩] ++ [Tok.lBrace])) =
      (psSuccess,
       [] ++ [.tuple (c1ArgList "w" none [⟨"a", "x", none⟩]) false true],
       [] ++ [.tuple (c1BodyList "w" none [⟨"a", "x", none⟩]) false false],
       { initState (renderSelClauses [⟨"a", "x", none⟩] ++ [Tok.lBrace]) with
           toks := [Tok.lBrace],
           diags := [] ++ dupDiags [] [⟨"a", "x", none⟩],
           nextIndex := 0 + 1 }) :=
  (claim_C1 2 0 5 0 [⟨"a", "x", none⟩] "w" none false [] [] [Tok.lBrace] _ rfl rfl
    rfl rfl).1

/-- On a paren-or-tuple first pattern, parseSelectorFunctionArguments appends
exactly one TuplePattern to each of the two lists, whatever the selector
clauses do. -/
theorem selector_growth (lf pf : Nat) (argPatterns bodyPatterns : List Pattern)
    (first : Pattern) (st : PState) (h : first.isParenOrTuple = true) :
    ∃ stat t1 t2 st2,
      parseSelectorFunctionArguments lf pf argPatterns bodyPatterns first st =
        (stat, argPatterns ++ [t1], bodyPatterns ++ [t2], st2) ∧
      t1.isTupleNode = true ∧ t2.isTupleNode = true := by
  cases first with
  | paren s i => exact ⟨_, _, _, _, rfl, rfl, rfl⟩
  | tuple es v i =>
    cases es with
    | nil => exact ⟨_, _, _, _, rfl, rfl, rfl⟩
    | cons fe re => exact ⟨_, _, _, _, rfl, rfl, rfl⟩
  | anyP i => simp [Pattern.isParenOrTuple] at h
  | named n l i => simp [Pattern.isParenOrTuple] at h
  | typed s t i => simp [Pattern.isParenOrTuple] at h
  | varP l s i => simp [Pattern.isParenOrTuple] at h
  | exprP e i => simp [Pattern.isParenOrTuple] at h
  | isaP t i => simp [Pattern.isParenOrTuple] at h

/-- C9.  On every paren-or-tuple first pattern (the only shapes
parsePatternTuple hands to it), parseSelectorFunctionArguments appends
exactly one TuplePattern to the argument-pattern list and exactly one to the
body-pattern list, on every execution path, so the two lists grow by the same
amount even on failure. -/
theorem claim_C9 (lf pf : Nat) (argPatterns bodyPatterns : List Pattern)
    (first : Pattern) (st : PState) (h : first.isParenOrTuple = true) :
    ∃ stat t1 t2 st2,
      parseSelectorFunctionArguments lf pf argPatterns bodyPatterns first st =
        (stat, argPatterns ++ [t1], bodyPatterns ++ [t2], st2) ∧
      t1.isTupleNode = true ∧ t2.isTupleNode = true :=
  selector_growth lf pf argPatterns bodyPatterns first st h

/-- Witness for C9 at a concrete input: a stray token after the first clause
forces the error path, and both lists still grow by one tuple each. -/
theorem claim_C9_witness :
    ∃ stat t1 t2 st2,
      parseSelectorFunctionArguments 1 1 [] [] (.paren (.named "x" true false) false)
          (initState [Tok.rBrace]) =
        (stat, [] ++ [t1], [] ++ [t2], st2) ∧
      t1.isTupleNode = true ∧ t2.isTupleNode = true :=
  claim_C9 1 1 [] [] (.paren (.named "x" true false) false) (initState [Tok.rBrace]) rfl

/-- The curried-argument loop only ever appends the same new patterns to both
lists. -/
theorem curried_growth :
    ∀ (lf pf : Nat) (a b : List Pattern) (st : PState),
      ∃ ps stat st2,
        parseCurriedFunctionArguments lf pf a b st = (stat, a ++ ps, b ++ ps, st2)
  | 0, _, a, b, st => ⟨[], psSuccess, st, by simp [parseCurriedFunctionArguments]⟩
  | lf + 1, pf, a, b, st => by
    rw [parseCurriedFunctionArguments]
    by_cases hc : st.cur = .lParen
    · rw [if_pos hc]
      rcases hpt : parsePatternTuple pf false true st with ⟨p?, pstat, st1⟩
      cases p? with
      | none => exact ⟨[], pstat, st1, by simp⟩
      | some p =>
        by_cases hcc : pstat.hasCC = true
        · exact ⟨[], pstat, st1, by simp [hcc]⟩
        · obtain ⟨ps, stat, st2, h⟩ := curried_growth lf pf (a ++ [p]) (b ++ [p]) st1
          exact ⟨p :: ps, stat, st2, by simp [hcc, h]⟩
    · rw [if_neg hc]
      exact ⟨[], psSuccess, st, by simp⟩

/-- C7 (amended).  parsePatternTuple never returns a null first clause — on
error it still hands back the tuple pattern it assembled — so the
null-recovery branch of parseFunctionArguments that would synthesize an
empty-tuple placeholder is unreachable; on every token stream
parseFunctionArguments still returns with both lists grown by the same
number (at least one) of patterns, in both the selector-style and the
curried branch. -/
theorem claim_C7 (lf pf : Nat) (argPatterns bodyPatterns : List Pattern) (st : PState) :
    (parsePatternTuple pf true true st).1.isSome = true ∧
    ∃ stat na nb hasSel st2,
      parseFunctionArguments lf pf argPatterns bodyPatterns st =
        (stat, argPatterns ++ na, bodyPatterns ++ nb, hasSel, st2) ∧
      na.length = nb.length ∧ 1 ≤ na.length := by
  obtain ⟨p, hp1, hp2⟩ := parsePatternTuple_shape pf true true st
  constructor
  · rw [hp1]; rfl
  · rcases hpt : parsePatternTuple pf true true st with ⟨fst, fstat, st0⟩
    rw [hpt] at hp1
    simp only at hp1
    subst hp1
    simp only [parseFunctionArguments, hpt]
    by_cases hbind : isAtStartOfBindingName st0 = true
    · obtain ⟨s2, t1, t2, st3, hsel, _, _⟩ :=
        selector_growth lf pf argPatterns bodyPatterns p st0 hp2
      refine ⟨fstat.union s2, [t1], [t2], true, st3, ?_, rfl, by simp⟩
      simp [hbind, hsel, Option.getD]
    · obtain ⟨ps, s2, st3, hcur⟩ :=
        curried_growth lf pf (argPatterns ++ [p]) (bodyPatterns ++ [p]) st0
      refine ⟨fstat.union s2, p :: ps, p :: ps, false, st3, ?_, rfl, by simp⟩
      simp [hbind, hcur, Option.getD]

/-- Counterexample to C7 as stated: on the unterminated clause ( x the first
clause's parse reports an error, yet the result is non-null and the parsed
paren pattern — not an empty-tuple placeholder — is what both lists receive. -/
theorem claim_C7_counterexample :
    (parsePatternTuple 5 true true (initState [Tok.lParen, .ident "x"])).1 =
      some (Pattern.paren (.named "x" true false) false) ∧
    (parseFunctionArguments 1 5 [] [] (initState [Tok.lParen, .ident "x"])).1.isError =
      true ∧
    (parseFunctionArguments 1 5 [] [] (initState [Tok.lParen, .ident "x"])).2.1 =
      [Pattern.paren (.named "x" true false) false] ∧
    Pattern.paren (.named "x" true false) false ≠ emptyTuplePattern :=
  ⟨rfl, rfl, rfl, by simp [emptyTuplePattern]⟩

/-- C8 (amended).  A var/let pattern nested inside a var/let context is
diagnosed as non-fatal and the parse proceeds with the INNER token's
qualifier: the returned Var pattern and its binding carry the inner
let-ness, and parsing succeeds. -/
theorem claim_C8 (n : Nat) (outer innerLet : Bool) (nm : String) (rest : List Tok)
    (st : PState) (hin : st.inVarOrLet = some outer)
    (htoks : st.toks = (if innerLet then Tok.kwLet else Tok.kwVar) :: .ident nm :: rest)
    (hcol : rest.headD .eof ≠ .colon) :
    parsePatternVarOrLet (n + 3) st =
      (some (.varP innerLet (.named nm innerLet false) false), psSuccess,
       { st with
           toks := rest,
           diags := st.diags ++ [Diag.varPatternInVar innerLet] }) := by
  obtain ⟨toks, ivl, dgs, ni, pcs, ccs, dcs, nc⟩ := st
  simp only at hin htoks
  subst hin
  cases innerLet <;> simp only [Bool.false_eq_true, if_true, if_false] at htoks <;>
    subst htoks
  · have key : ∀ (s : PState), s.toks = Tok.ident nm :: rest →
        parsePattern (n + 2) false s =
          (some (.named nm false false), psSuccess, { s with toks := rest }) :=
      fun s hs => parsePattern_untyped n false nm rest s hs hcol
    rw [parsePatternVarOrLet]
    simp [PState.cur, PState.advance, PState.addDiag, key, psSuccess]
  · have key : ∀ (s : PState), s.toks = Tok.ident nm :: rest →
        parsePattern (n + 2) true s =
          (some (.named nm true false), psSuccess, { s with toks := rest }) :=
      fun s hs => parsePattern_untyped n true nm rest s hs hcol
    rw [parsePatternVarOrLet]
    simp [PState.cur, PState.advance, PState.addDiag, key, psSuccess]

/-- Witness for C8 at a concrete input: let x inside a var context. -/
theorem claim_C8_witness :
    parsePatternVarOrLet 3 ⟨[Tok.kwLet, Tok.ident "x"], some false, [], 0, [], [], [], 0⟩ =
      (some (.varP true (.named "x" true false) false), psSuccess,
       ⟨[], some false, [Diag.varPatternInVar true], 0, [], [], [], 0⟩) :=
  claim_C8 0 false true "x" []
    ⟨[Tok.kwLet, Tok.ident "x"], some false, [], 0, [], [], [], 0⟩ rfl rfl (by simp)

/-- Counterexample to C8 as stated: a let pattern inside a var context parses
with the inner let qualifier, not the outer var qualifier, and the nesting
diagnostic is emitted. -/
theorem claim_C8_counterexample :
    (parsePatternVarOrLet 3
        ⟨[Tok.kwLet, Tok.ident "x"], some false, [], 0, [], [], [], 0⟩).1 =
      some (.varP true (.named "x" true false) false) ∧
    Pattern.varP true (.named "x" true false) false ≠
      Pattern.varP false (.named "x" false false) false ∧
    (parsePatternVarOrLet 3
        ⟨[Tok.kwLet, Tok.ident "x"], some false, [], 0, [], [], [], 0⟩).2.2.diags =
      [Diag.varPatternInVar true] :=
  ⟨rfl, by simp, rfl⟩

end ParsePattern
